import Mathlib

/-!
# volumeicon: the ALSA backend (`src/alsa_backend.c`)

A shallow embedding of the volume-control backend.  The static variables of
the C file become the fields of `State`; every exported function becomes a
function on `State` returning `Except Fault _`, where a `Fault` is a failed
`assert`, a faulting integer division or a memory fault.  The alsa-lib mixer the
backend talks
to is an explicit value (`Mixer`): a list of simple elements in hardware
enumeration order.  An element pointer (`snd_mixer_elem_t *`) is the position
of the element in that list.

A C `long` is a two's-complement integer between `LONG_MIN` and `LONG_MAX`
(`Long`), of 64 bits as on the LP64 Linux platforms; every `long` operation of
the source is followed by `wrap_long`, the conversion of a `long` result to
`int` by `wrap_int`.  C division is `Int.tdiv` (truncation toward zero).
-/

namespace VolumeIcon

/-! ## Data model -/

/-- Abortive outcomes of a backend call. -/
inductive Fault where
  /-- A failed `assert(...)`. -/
  | assert_failed
  /-- An integer division whose divisor is zero. -/
  | div_by_zero
  /-- The integer division `LONG_MIN / -1`, whose quotient is no `long`. -/
  | div_overflow
  /-- A store past the end of a fixed-size buffer. -/
  | buffer_overflow
  /-- A dereference of a pointer that addresses no object (NULL mixer handle,
  element pointer outside the mixer, NULL listener). -/
  | bad_pointer
  deriving DecidableEq, Repr

deriving instance DecidableEq for Except

/-- The least value of a C `long` (64 bits). -/
def LONG_MIN : Int := -9223372036854775808

/-- The greatest value of a C `long` (64 bits). -/
def LONG_MAX : Int := 9223372036854775807

/-- A value of the C type `long`. -/
abbrev Long : Type :=
  { x : Int // LONG_MIN ≤ x ∧ x ≤ LONG_MAX }

/-- The `long` a `long` operation yields for the exact result `x`: `x` reduced
modulo 2^64 into the range of `long`. -/
def wrap_long (x : Int) : Long :=
  ⟨(x + 9223372036854775808) % 18446744073709551616 - 9223372036854775808,
    by simp only [LONG_MIN, LONG_MAX]; omega⟩

/-- The `int` (32 bits) the conversion of the `long` value `x` yields. -/
def wrap_int (x : Int) : Int :=
  (x + 2147483648) % 4294967296 - 2147483648

/-- The size of the static buffer `m_card`. -/
def M_CARD_SIZE : Nat := 128

/-- One simple mixer element as alsa-lib presents it to the backend.
`volume` / `pswitch` are the values of sub-channel 0 (the one the backend
reads), `volume_others` / `pswitch_others` those of the further sub-channels.
`callback` tells whether `asound_elem_event` is installed as the element
callback (`false` is the NULL callback). -/
structure Elem where
  name : String
  index : Nat
  has_playback_volume : Bool
  has_playback_switch : Bool
  pmin : Long
  pmax : Long
  volume : Long
  volume_others : List Long
  pswitch : Int
  pswitch_others : List Int
  callback : Bool
  deriving DecidableEq, Repr

/-- The mixer behind the `m_mixer` handle: its elements in enumeration order,
the elements with an undelivered change event (oldest first), the error code
the transport reports at the next drain (negative on failure), and the two
results of the poll-descriptor queries. -/
structure Mixer where
  elems : List Elem
  pending : List Nat
  handle_error : Int
  poll_descriptors_count : Int
  poll_descriptors : Int
  deriving DecidableEq, Repr

/-- The static variables of `alsa_backend.c`.  `m_volume_changed` tells whether
a listener is stored; the listener records each of its invocations, in order,
in `volume_changed_calls`.  `io_watch` tells whether `asound_poll_cb` was
registered with the main loop. -/
structure State where
  m_card : String
  m_elem : Option Nat
  m_channel : Option String
  m_mixer : Option Mixer
  m_channel_names : List String
  m_volume_changed : Bool
  asound_setup_called : Nat
  io_watch : Bool
  volume_changed_calls : List (Int × Bool)
  deriving DecidableEq, Repr

/-- The state at program start: every static variable zero-initialised. -/
def State.init : State :=
  { m_card := "", m_elem := none, m_channel := none, m_mixer := none,
    m_channel_names := [], m_volume_changed := false,
    asound_setup_called := 0, io_watch := false, volume_changed_calls := [] }

/-! ## Library calls (glib, alsa-lib) -/

/-- The glib comparison `g_strcmp0`: NULL-safe string comparison.  Only the
test against zero is used by the backend, so unequal arguments give 1. -/
def g_strcmp0 (a b : Option String) : Int :=
  if a = b then 0 else 1

/-- The glib call `g_list_append`: adds the element at the end of the list. -/
def g_list_append (l : List String) (data : String) : List String :=
  l ++ [data]

/-- Applies `f` to the element at position `i`; other positions, and a list
without position `i`, are unchanged. -/
def modifyAt (f : Elem → Elem) : List Elem → Nat → List Elem
  | [], _ => []
  | e :: es, 0 => f e :: es
  | e :: es, i + 1 => e :: modifyAt f es i

/-- The alsa-lib call `snd_mixer_load` on a freshly opened handle: the elements
of the card, none of them carrying a callback yet. -/
def snd_mixer_load (hw : Mixer) : Mixer :=
  { hw with elems := hw.elems.map (fun e => { e with callback := false }) }

/-- The alsa-lib call `snd_mixer_find_selem` for an id made by
`snd_mixer_selem_id_malloc` (index 0) and `snd_mixer_selem_id_set_name`: the
first element with that name and index 0, whatever its capabilities. -/
def snd_mixer_find_selem : List Elem → String → Option Nat
  | [], _ => none
  | e :: es, name =>
    if e.name = name ∧ e.index = 0 then some 0
    else (snd_mixer_find_selem es name).map (fun j => j + 1)

/-- The alsa-lib call `snd_mixer_elem_set_callback`. -/
def snd_mixer_elem_set_callback (m : Mixer) (elem : Nat) (cb : Bool) : Mixer :=
  { m with elems := modifyAt (fun e => { e with callback := cb }) m.elems elem }

/-- The alsa-lib call `snd_mixer_selem_set_playback_volume_all`: every
sub-channel of the element takes the value. -/
def snd_mixer_selem_set_playback_volume_all (m : Mixer) (elem : Nat) (value : Long) :
    Mixer :=
  let set_all : Elem → Elem := fun e =>
    { e with volume := value, volume_others := e.volume_others.map (fun _ => value) }
  { m with elems := modifyAt set_all m.elems elem }

/-- The alsa-lib call `snd_mixer_selem_set_playback_switch_all`: every
sub-channel switch of the element takes the value. -/
def snd_mixer_selem_set_playback_switch_all (m : Mixer) (elem : Nat) (value : Int) :
    Mixer :=
  let set_all : Elem → Elem := fun e =>
    { e with pswitch := value, pswitch_others := e.pswitch_others.map (fun _ => value) }
  { m with elems := modifyAt set_all m.elems elem }

/-- The state after alsa-lib changed the mixer behind the handle to `m`. -/
def State.with_mixer (s : State) (m : Mixer) : State :=
  { s with m_mixer := some m }

/-- Dereference of the element pointer `elem` through the mixer handle. -/
def State.deref (s : State) (elem : Nat) : Except Fault (Mixer × Elem) :=
  match s.m_mixer with
  | none => .error .bad_pointer
  | some m =>
    match m.elems[elem]? with
    | none => .error .bad_pointer
    | some e => .ok (m, e)

/-! ## Static functions and exported functions of the backend -/

/-- The scan of `asound_channel_exists` over the list of channel names. -/
def channel_exists_loop (channel : Option String) : List String → Bool
  | [] => false
  | name :: next =>
    if g_strcmp0 channel (some name) = 0 then true
    else channel_exists_loop channel next

/-- Source function `asound_channel_exists`. -/
def asound_channel_exists (s : State) (channel : Option String) : Bool :=
  channel_exists_loop channel s.m_channel_names

/-- Source function `asound_get_channel`. -/
def asound_get_channel (s : State) : Option String :=
  s.m_channel

/-- Source function `asound_get_channel_names`. -/
def asound_get_channel_names (s : State) : List String :=
  s.m_channel_names

/-- Source function `asound_get_volume`:
`100 * (value - pmin) / (pmax - pmin)` on sub-channel 0 of the bound element,
computed in `long` and returned as `int`. -/
def asound_get_volume (s : State) : Except Fault Int :=
  match s.m_elem with
  | none => .error .assert_failed
  | some elem =>
    match s.deref elem with
    | .error f => .error f
    | .ok (_, e) =>
      let num := wrap_long (100 * (wrap_long (e.volume.val - e.pmin.val)).val)
      let den := wrap_long (e.pmax.val - e.pmin.val)
      if den.val = 0 then .error .div_by_zero
      else if num.val = LONG_MIN ∧ den.val = -1 then .error .div_overflow
      else .ok (wrap_int (Int.tdiv num.val den.val))

/-- Source function `asound_get_mute`. -/
def asound_get_mute (s : State) : Except Fault Bool :=
  match s.m_elem with
  | none => .error .assert_failed
  | some elem =>
    match s.deref elem with
    | .error f => .error f
    | .ok (_, e) =>
      if e.has_playback_switch then
        .ok (if e.pswitch ≠ 0 then false else true)
      else .ok false

/-- Source function `asound_set_volume`:
writes `pmin + (pmax - pmin) * volume / 100`, computed in `long`, to every
sub-channel. -/
def asound_set_volume (volume : Int) (s : State) : Except Fault State :=
  match s.m_elem with
  | none => .error .assert_failed
  | some elem =>
    if ¬ (0 ≤ volume ∧ volume ≤ 100) then .error .assert_failed
    else
      match s.deref elem with
      | .error f => .error f
      | .ok (m, e) =>
        let product := wrap_long ((wrap_long (e.pmax.val - e.pmin.val)).val * volume)
        let value := wrap_long (e.pmin.val + Int.tdiv product.val 100)
        .ok (s.with_mixer (snd_mixer_selem_set_playback_volume_all m elem value))

/-- Source function `asound_set_mute`. -/
def asound_set_mute (mute : Bool) (s : State) : Except Fault State :=
  match s.m_elem with
  | none => .error .assert_failed
  | some elem =>
    match s.deref elem with
    | .error f => .error f
    | .ok (m, e) =>
      if e.has_playback_switch then
        .ok (s.with_mixer
          (snd_mixer_selem_set_playback_switch_all m elem (if mute then 0 else 1)))
      else if mute then asound_set_volume 0 s
      else .ok s

/-- Source function `asound_set_channel`. -/
def asound_set_channel (channel : Option String) (s : State) : Except Fault State :=
  match channel with
  | none => .error .assert_failed
  | some name =>
    match s.m_mixer with
    | none => .error .assert_failed
    | some m =>
      if g_strcmp0 channel s.m_channel = 0 then .ok s
      else
        let m1 :=
          match s.m_elem with
          | some old => snd_mixer_elem_set_callback m old false
          | none => m
        let found := snd_mixer_find_selem m1.elems name
        let m2 :=
          match found with
          | some elem => snd_mixer_elem_set_callback m1 elem true
          | none => m1
        .ok { s with m_channel := some name, m_elem := found, m_mixer := some m2 }

/-- The enumeration loop of `asound_setup`: walks the elements in order and
appends the name of each one that has a playback volume. -/
def setup_loop : List Elem → List String → List String
  | [], names => names
  | elem :: next, names =>
    setup_loop next
      (if elem.has_playback_volume then g_list_append names elem.name else names)

/-- Source function `asound_setup`.  `hw` is the card that `snd_mixer_attach`
reaches under the name `card`; the listener is the recording listener of
`State`.  `strcpy(m_card, card)` stores the bytes of `card` and a terminating
zero into the 128-byte `m_card`: a name of 128 bytes or more runs past it. -/
def asound_setup (hw : Mixer) (card : String) (channel : Option String) (s : State) :
    Except Fault State :=
  if s.asound_setup_called ≠ 0 then .error .assert_failed
  else if M_CARD_SIZE ≤ card.utf8ByteSize then .error .buffer_overflow
  else
    let m := snd_mixer_load hw
    let s1 : State := { s with
      asound_setup_called := s.asound_setup_called + 1,
      m_card := card, m_volume_changed := true, m_mixer := some m }
    let s2 : State :=
      if 1 ≤ m.poll_descriptors_count ∧ m.poll_descriptors = 1 then
        { s1 with io_watch := true }
      else s1
    let s3 : State := { s2 with
      m_channel_names := setup_loop m.elems s2.m_channel_names }
    if channel ≠ none ∧ asound_channel_exists s3 channel = true then
      asound_set_channel channel s3
    else
      match s3.m_channel_names with
      | first :: _ => asound_set_channel (some first) s3
      | [] => .ok s3

/-- Source function `asound_elem_event`, the element callback. -/
def asound_elem_event (elem : Nat) (s : State) : Except Fault State :=
  if s.m_elem ≠ some elem then .error .assert_failed
  else
    match asound_get_volume s with
    | .error f => .error f
    | .ok volume =>
      match asound_get_mute s with
      | .error f => .error f
      | .ok mute =>
        if s.m_volume_changed then
          .ok { s with volume_changed_calls := s.volume_changed_calls ++ [(volume, mute)] }
        else .error .bad_pointer

/-- Delivery of the pending events inside `snd_mixer_handle_events`: for each
event, the callback of its element runs if one is installed. -/
def dispatch_events : List Nat → State → Except Fault State
  | [], s => .ok s
  | elem :: later, s =>
    match s.deref elem with
    | .error f => .error f
    | .ok (_, e) =>
      if e.callback then
        match asound_elem_event elem s with
        | .error f => .error f
        | .ok s1 => dispatch_events later s1
      else dispatch_events later s

/-- The alsa-lib call `snd_mixer_handle_events`: a negative error code when the
transport fails, otherwise the number of events delivered. -/
def snd_mixer_handle_events (s : State) : Except Fault (Int × State) :=
  match s.m_mixer with
  | none => .error .bad_pointer
  | some m =>
    if m.handle_error < 0 then .ok (m.handle_error, s)
    else
      match dispatch_events m.pending (s.with_mixer { m with pending := [] }) with
      | .error f => .error f
      | .ok s1 => .ok ((m.pending.length : Int), s1)

/-- Source function `asound_poll_cb`: `true` keeps the watch. -/
def asound_poll_cb (s : State) : Except Fault (Bool × State) :=
  match snd_mixer_handle_events s with
  | .error f => .error f
  | .ok (retval, s1) =>
    if retval < 0 then .ok (false, s1) else .ok (true, s1)

/-- A change of the element's playback volume made outside the backend
(volume keys, another program): every sub-channel takes `value` and a change
event for the element is queued. -/
def external_volume_change (elem : Nat) (value : Long) (s : State) : State :=
  match s.m_mixer with
  | none => s
  | some m =>
    let m1 := snd_mixer_selem_set_playback_volume_all m elem value
    s.with_mixer { m1 with pending := m1.pending ++ [elem] }

/-! ## Predicates on states, reachability, scenario builders -/

/-- The element `e` at position `elem` of mixer `m` is the bound element. -/
def Bound (s : State) (elem : Nat) (m : Mixer) (e : Elem) : Prop :=
  s.m_elem = some elem ∧ s.m_mixer = some m ∧ m.elems[elem]? = some e

instance (s : State) (elem : Nat) (m : Mixer) (e : Elem) : Decidable (Bound s elem m e) := by
  unfold Bound; infer_instance

/-- The element after `snd_mixer_selem_set_playback_volume_all`. -/
def Elem.with_volume (e : Elem) (value : Long) : Elem :=
  { e with volume := value, volume_others := e.volume_others.map (fun _ => value) }

/-- What `snd_mixer_find_selem` compares: name and index of an element. -/
def Elem.key (e : Elem) : String × Nat :=
  (e.name, e.index)

/-- The states the backend reaches on card `hw`: `asound_setup` from the
initial state, then any sequence of successful `asound_set_channel`,
`asound_set_volume` and `asound_set_mute` calls, interleaved with volume
changes from outside and drains of the event bridge. -/
inductive Reachable (hw : Mixer) : State → Prop where
  | setup (card : String) (channel : Option String) (s : State) :
      asound_setup hw card channel State.init = .ok s → Reachable hw s
  | set_channel (channel : Option String) (s s1 : State) :
      Reachable hw s → asound_set_channel channel s = .ok s1 → Reachable hw s1
  | set_volume (volume : Int) (s s1 : State) :
      Reachable hw s → asound_set_volume volume s = .ok s1 → Reachable hw s1
  | set_mute (mute : Bool) (s s1 : State) :
      Reachable hw s → asound_set_mute mute s = .ok s1 → Reachable hw s1
  | external (elem : Nat) (value : Long) (s : State) :
      Reachable hw s → Reachable hw (external_volume_change elem value s)
  | poll (keep : Bool) (s s1 : State) :
      Reachable hw s → asound_poll_cb s = .ok (keep, s1) → Reachable hw s1

/-- The callback `asound_elem_event` sits on exactly the element `bound`
points to, and on no element when `bound` is NULL. -/
def CallbackExact (m : Mixer) (bound : Option Nat) : Prop :=
  ∀ i e, m.elems[i]? = some e → (e.callback = true ↔ bound = some i)

/-- A simple element with index 0, no switch and one further sub-channel; the
range and the volume are given as integers and stored as `long`. -/
def mk_elem (name : String) (has_playback_volume : Bool) (pmin pmax volume : Int) : Elem :=
  { name := name, index := 0, has_playback_volume := has_playback_volume,
    has_playback_switch := false, pmin := wrap_long pmin, pmax := wrap_long pmax,
    volume := wrap_long volume, volume_others := [wrap_long volume],
    pswitch := 0, pswitch_others := [], callback := false }

/-- A card with the given elements, one poll descriptor and a working transport. -/
def mk_card (elems : List Elem) : Mixer :=
  { elems := elems, pending := [], handle_error := 0,
    poll_descriptors_count := 1, poll_descriptors := 1 }

/-- The state `asound_setup` leaves on a card whose only element is `e`
(index 0, playback volume): `e` is bound and carries the callback. -/
def single_state (e : Elem) : State :=
  { m_card := "default", m_elem := some 0, m_channel := some e.name,
    m_volume_changed := true, asound_setup_called := 1, io_watch := true,
    m_channel_names := [e.name], volume_changed_calls := [],
    m_mixer := some (mk_card [{ e with callback := true }]) }

/-! ## Intermediate states of setup and rebinding -/

/-- The names of the elements with playback volume, in enumeration order. -/
def playback_volume_names (elems : List Elem) : List String :=
  (elems.filter (fun e => e.has_playback_volume)).map (fun e => e.name)

/-- The state of `asound_setup` before it binds the initial channel. -/
def setup_unbound (hw : Mixer) (card : String) : State :=
  { m_card := card, m_elem := none, m_channel := none,
    m_mixer := some (snd_mixer_load hw),
    m_channel_names := playback_volume_names hw.elems,
    m_volume_changed := true, asound_setup_called := 1,
    io_watch := decide (1 ≤ hw.poll_descriptors_count ∧ hw.poll_descriptors = 1),
    volume_changed_calls := [] }

/-- The state `asound_set_channel` leaves when it rebinds. -/
def State.rebind (s : State) (name : String) (found : Option Nat) (m : Mixer) : State :=
  { s with m_channel := some name, m_elem := found, m_mixer := some m }

/-- The mixer after `asound_set_channel` moved the callback from `old` to `found`. -/
def rebind_mixer (m : Mixer) (old found : Option Nat) : Mixer :=
  let m1 :=
    match old with
    | some i => snd_mixer_elem_set_callback m i false
    | none => m
  match found with
  | some j => snd_mixer_elem_set_callback m1 j true
  | none => m1

/-! ## Invariants of the reachable states -/

/-- What the invariants read of an element: name, index and callback. -/
def Elem.tag (e : Elem) : String × Nat × Bool :=
  (e.name, e.index, e.callback)

/-- The invariant of the reachable states on card `hw`: the handle is open, the
element names and indices are those of the card, the callback sits exactly on
the bound element, and the bound element is the one `snd_mixer_find_selem`
finds for `m_channel`. -/
def Inv (hw : Mixer) (s : State) : Prop :=
  ∃ m, s.m_mixer = some m ∧ CallbackExact m s.m_elem ∧
    m.elems.map Elem.key = hw.elems.map Elem.key ∧
    s.m_elem = s.m_channel.bind (snd_mixer_find_selem hw.elems)

/-- The binding is sound enough for a dispatch: the handle is open, callbacks
sit only on the bound element, and the bound element exists. -/
def GoodBinding (s : State) : Prop :=
  ∃ m, s.m_mixer = some m ∧ CallbackExact m s.m_elem ∧
    ∀ i, s.m_elem = some i → ∃ e, m.elems[i]? = some e

/-! ## Scenario cards -/

/-- A card with "Master" (playback volume) and "Capture" (no playback volume). -/
def capture_card : Mixer :=
  mk_card [mk_elem "Master" true 0 100 0, mk_elem "Capture" false 0 100 0]

/-- A card with the playback elements "Master" (range [0, 65536]) and "PCM". -/
def master_pcm_card : Mixer :=
  mk_card [mk_elem "Master" true 0 65536 100, mk_elem "PCM" true 0 255 255]

/-- A card on which two elements with playback volume share the name "PCM"
(indices 0 and 1), with a capture element between the playback elements. -/
def duplicate_card : Mixer :=
  mk_card [mk_elem "Master" true 0 65536 100, mk_elem "Capture" false 0 100 0,
    mk_elem "PCM" true 0 255 255, { mk_elem "PCM" true 0 255 255 with index := 1 }]

/-! ## The feedback player: padding of a short period -/

/-- The period buffer of `asound_play_feedback`: the `buffer_size` bytes that
`malloc` returned, and the stores that went past them (index and value, in
program order). -/
structure PeriodBuffer where
  bytes : List Int
  beyond : List (Nat × Int)
  deriving DecidableEq, Repr

/-- The store `buffer[i] = c`. -/
def PeriodBuffer.store (b : PeriodBuffer) (i : Nat) (c : Int) : PeriodBuffer :=
  if i < b.bytes.length then { b with bytes := b.bytes.set i c }
  else { b with beyond := b.beyond ++ [(i, c)] }

/-- The padding loop `for(i = ...; i <= buffer_size; i++) buffer[i] = '0';`
from its current `i`, for at most `fuel` iterations.  The character '0' is the
byte 48. -/
def pad_loop (buffer_size : Nat) : Nat → Nat → PeriodBuffer → PeriodBuffer
  | 0, _, b => b
  | fuel + 1, i, b =>
    if i ≤ buffer_size then pad_loop buffer_size fuel (i + 1) (b.store i 48)
    else b

/-- The padding step of the write loop in `asound_play_feedback`, after a read
that returned `res` bytes: `if(res < buffer_size)` the loop runs from
`i = res + 1`.  It makes at most `buffer_size` iterations. -/
def pad_short_period (buffer_size res : Nat) (b : PeriodBuffer) : PeriodBuffer :=
  if res < buffer_size then pad_loop buffer_size (buffer_size + 1) (res + 1) b
  else b

/-! ## Lemmas on machine integers -/

theorem wrap_long_of_fits (x : Int) (h0 : -9223372036854775808 ≤ x)
    (h1 : x ≤ 9223372036854775807) : (wrap_long x).val = x := by
  simp only [wrap_long]
  omega

theorem long_bounds (a : Long) :
    -9223372036854775808 ≤ a.val ∧ a.val ≤ 9223372036854775807 :=
  a.property

theorem wrap_long_val_self (a : Long) : wrap_long a.val = a := by
  apply Subtype.ext
  exact wrap_long_of_fits a.val (long_bounds a).1 (long_bounds a).2

theorem wrap_int_of_fits (x : Int) (h0 : -2147483648 ≤ x) (h1 : x ≤ 2147483647) :
    wrap_int x = x := by
  simp only [wrap_int]
  omega

theorem wrap_long_sub_ne_zero (a b : Long) (h : a.val < b.val) :
    (wrap_long (b.val - a.val)).val ≠ 0 := by
  have ha := long_bounds a
  have hb := long_bounds b
  simp only [wrap_long]
  omega

/-! ## Lemmas on the library model -/

theorem modifyAt_getElem (f : Elem → Elem) (es : List Elem) (i j : Nat) :
    (modifyAt f es i)[j]? = if j = i then es[i]?.map f else es[j]? := by
  induction es generalizing i j with
  | nil => simp [modifyAt]
  | cons e es ih =>
    cases i with
    | zero =>
      cases j with
      | zero => simp [modifyAt]
      | succ j => simp [modifyAt]
    | succ i =>
      cases j with
      | zero => simp [modifyAt]
      | succ j => simp [modifyAt, ih]

theorem tdiv_normalized_range (d x : Int) (hd : 0 < d) (hx0 : 0 ≤ x) (hx1 : x ≤ d) :
    0 ≤ Int.tdiv (100 * x) d ∧ Int.tdiv (100 * x) d ≤ 100 := by
  rw [Int.tdiv_eq_ediv (by positivity) hd.le]
  constructor
  · exact Int.ediv_nonneg (by positivity) hd.le
  · have : 100 * x / d < 100 + 1 := by
      rw [Int.ediv_lt_iff_lt_mul hd]
      nlinarith
    omega

/-- On a bound element with in-range raw value whose range width and product
`100 * (raw - pmin)` fit `long`, `asound_get_volume` returns the exact
truncated quotient. -/
theorem get_volume_of_bound (s : State) (elem : Nat) (m : Mixer) (e : Elem)
    (hb : Bound s elem m e) (hr : e.pmin.val < e.pmax.val)
    (h0 : e.pmin.val ≤ e.volume.val) (h1 : e.volume.val ≤ e.pmax.val)
    (hd : e.pmax.val - e.pmin.val ≤ 9223372036854775807)
    (hfit : 100 * (e.volume.val - e.pmin.val) ≤ 9223372036854775807) :
    asound_get_volume s =
      .ok (Int.tdiv (100 * (e.volume.val - e.pmin.val)) (e.pmax.val - e.pmin.val)) := by
  obtain ⟨h1', h2, h3⟩ := hb
  have hx : (wrap_long (e.volume.val - e.pmin.val)).val = e.volume.val - e.pmin.val :=
    wrap_long_of_fits _ (by omega) (by omega)
  have hn : (wrap_long (100 * (e.volume.val - e.pmin.val))).val
      = 100 * (e.volume.val - e.pmin.val) :=
    wrap_long_of_fits _ (by omega) hfit
  have hdn : (wrap_long (e.pmax.val - e.pmin.val)).val = e.pmax.val - e.pmin.val :=
    wrap_long_of_fits _ (by omega) hd
  have hrange := tdiv_normalized_range (e.pmax.val - e.pmin.val) (e.volume.val - e.pmin.val)
    (by omega) (by omega) (by omega)
  have hq := wrap_int_of_fits _ (by omega : -2147483648 ≤
    Int.tdiv (100 * (e.volume.val - e.pmin.val)) (e.pmax.val - e.pmin.val)) (by omega)
  have hne : ¬ (e.pmax.val - e.pmin.val = 0) := by omega
  have hne1 : ¬ (e.pmax.val - e.pmin.val = -1) := by omega
  simp [asound_get_volume, State.deref, h1', h2, h3, hx, hn, hdn, hne, hne1, hq]

/-- On a bound element whose sub-channel 0 holds `pmin`, with `pmin < pmax`,
`asound_get_volume` returns 0, whatever the width of the range. -/
theorem get_volume_at_pmin (s : State) (elem : Nat) (m : Mixer) (e : Elem)
    (hb : Bound s elem m e) (hr : e.pmin.val < e.pmax.val) (hv : e.volume = e.pmin) :
    asound_get_volume s = .ok 0 := by
  obtain ⟨h1, h2, h3⟩ := hb
  have hden := wrap_long_sub_ne_zero e.pmin e.pmax hr
  have hnum : (wrap_long (100 * (wrap_long (e.pmin.val - e.pmin.val)).val)).val = 0 := by
    simp [wrap_long]
  have hmin : ¬ ((0 : Int) = LONG_MIN) := by decide
  simp only [asound_get_volume, State.deref, h1, h2, h3, hv, hnum, hmin, false_and, if_false]
  rw [if_neg hden]
  simp [wrap_int]

theorem set_volume_of_bound (s : State) (elem : Nat) (m : Mixer) (e : Elem)
    (hb : Bound s elem m e) (v : Int) (hv0 : 0 ≤ v) (hv1 : v ≤ 100) :
    asound_set_volume v s = .ok (s.with_mixer (snd_mixer_selem_set_playback_volume_all m elem
      (wrap_long (e.pmin.val +
        Int.tdiv (wrap_long ((wrap_long (e.pmax.val - e.pmin.val)).val * v)).val 100)))) := by
  obtain ⟨h1, h2, h3⟩ := hb
  simp [asound_set_volume, State.deref, h1, h2, h3, hv0, hv1]

theorem bound_after_set_volume_all (s : State) (elem : Nat) (m : Mixer) (e : Elem)
    (hb : Bound s elem m e) (value : Long) :
    Bound (s.with_mixer (snd_mixer_selem_set_playback_volume_all m elem value))
      elem (snd_mixer_selem_set_playback_volume_all m elem value) (e.with_volume value) := by
  obtain ⟨h1, h2, h3⟩ := hb
  refine ⟨h1, rfl, ?_⟩
  simp [snd_mixer_selem_set_playback_volume_all, modifyAt_getElem, h3, Elem.with_volume]

/-- The value `asound_set_volume(v)` writes when `(pmax - pmin) * 100` fits
`long`: no `long` operation wraps. -/
theorem set_volume_value_of_fits (e : Elem) (v : Int) (hr : e.pmin.val < e.pmax.val)
    (hv0 : 0 ≤ v) (hv1 : v ≤ 100)
    (hfit : (e.pmax.val - e.pmin.val) * 100 ≤ 9223372036854775807) :
    (wrap_long (e.pmin.val +
        Int.tdiv (wrap_long ((wrap_long (e.pmax.val - e.pmin.val)).val * v)).val 100)).val
      = e.pmin.val + Int.tdiv ((e.pmax.val - e.pmin.val) * v) 100 ∧
    0 ≤ Int.tdiv ((e.pmax.val - e.pmin.val) * v) 100 ∧
    Int.tdiv ((e.pmax.val - e.pmin.val) * v) 100 ≤ e.pmax.val - e.pmin.val := by
  have hmin := long_bounds e.pmin
  have hmax := long_bounds e.pmax
  have hd0 : 0 < e.pmax.val - e.pmin.val := by omega
  have hdn : (wrap_long (e.pmax.val - e.pmin.val)).val = e.pmax.val - e.pmin.val :=
    wrap_long_of_fits _ (by omega) (by omega)
  have hp0 : 0 ≤ (e.pmax.val - e.pmin.val) * v := mul_nonneg hd0.le hv0
  have hp1 : (e.pmax.val - e.pmin.val) * v ≤ (e.pmax.val - e.pmin.val) * 100 :=
    mul_le_mul_of_nonneg_left hv1 hd0.le
  have hpr : (wrap_long ((e.pmax.val - e.pmin.val) * v)).val = (e.pmax.val - e.pmin.val) * v :=
    wrap_long_of_fits _ (by omega) (by omega)
  have hq : Int.tdiv ((e.pmax.val - e.pmin.val) * v) 100 = (e.pmax.val - e.pmin.val) * v / 100 :=
    Int.tdiv_eq_ediv hp0 (by norm_num)
  have hq0 : 0 ≤ (e.pmax.val - e.pmin.val) * v / 100 := Int.ediv_nonneg hp0 (by norm_num)
  have hq1 : (e.pmax.val - e.pmin.val) * v / 100 ≤ e.pmax.val - e.pmin.val := by
    have : (e.pmax.val - e.pmin.val) * v / 100 < (e.pmax.val - e.pmin.val) + 1 := by
      rw [Int.ediv_lt_iff_lt_mul (by norm_num)]
      nlinarith
    omega
  rw [hdn, hpr, hq]
  exact ⟨wrap_long_of_fits _ (by omega) (by omega), hq0, hq1⟩

/-! ## Arithmetic of the rescale -/

theorem tdiv_round_trip_bounds (d v : Int) (hd : 0 < d) (hv0 : 0 ≤ v) :
    Int.tdiv (100 * Int.tdiv (d * v) 100) d ≤ v ∧
      (v - 1 ≤ Int.tdiv (100 * Int.tdiv (d * v) 100) d ↔ d * v % 100 ≤ d) := by
  have hP : 0 ≤ d * v := mul_nonneg hd.le hv0
  rw [Int.tdiv_eq_ediv hP (by norm_num)]
  have hq0 : 0 ≤ d * v / 100 := Int.ediv_nonneg hP (by norm_num)
  rw [Int.tdiv_eq_ediv (by positivity) hd.le]
  have h1 : 100 * (d * v / 100) + d * v % 100 = d * v := Int.ediv_add_emod (d * v) 100
  constructor
  · have : 100 * (d * v / 100) / d < v + 1 := by
      rw [Int.ediv_lt_iff_lt_mul hd]
      have : 0 ≤ d * v % 100 := Int.emod_nonneg _ (by norm_num)
      nlinarith
    omega
  · rw [Int.le_ediv_iff_mul_le hd]
    constructor <;> intro h <;> nlinarith

theorem five_point_remainder (d v : Int) (hd : 50 ≤ d)
    (h : v = 0 ∨ v = 1 ∨ v = 50 ∨ v = 99 ∨ v = 100) : d * v % 100 ≤ d := by
  by_cases h99 : 99 ≤ d
  · have : d * v % 100 < 100 := Int.emod_lt_of_pos _ (by norm_num)
    omega
  · have hlt : d < 99 := by omega
    rcases h with h | h | h | h | h <;> subst h
    · omega
    · omega
    · omega
    · interval_cases d <;> decide
    · omega

/-! ## Claims on the volume rescale -/

/-- C1, as stated, fails: on the bound element "Master" with native range
[0, 3], `asound_set_volume(50)` writes 1 and `asound_get_volume()` then returns
33, which is 17 away from 50. -/
theorem round_trip_narrow_range_off_by_17 :
    asound_setup (mk_card [mk_elem "Master" true 0 3 0]) "default" none State.init
        = .ok (single_state (mk_elem "Master" true 0 3 0)) ∧
      asound_set_volume 50 (single_state (mk_elem "Master" true 0 3 0))
        = .ok (single_state (mk_elem "Master" true 0 3 1)) ∧
      asound_get_volume (single_state (mk_elem "Master" true 0 3 1)) = .ok 33 ∧
      ¬ (|(33 : Int) - 50| ≤ 1) := by
  decide

/-- The wrap-around of `long` in the rescale: on the range [0, 2^62] the
product `(pmax - pmin) * 100` is no `long`; `asound_set_volume(100)` writes 0
and `asound_get_volume()` then returns 0. -/
theorem round_trip_wraps_on_huge_range :
    asound_set_volume 100 (single_state (mk_elem "Master" true 0 4611686018427387904 7))
        = .ok (single_state (mk_elem "Master" true 0 4611686018427387904 0)) ∧
      asound_get_volume (single_state (mk_elem "Master" true 0 4611686018427387904 0))
        = .ok 0 := by
  decide

/-- C1, amended: for a bound element with native range `pmin < pmax` for which
`(pmax - pmin) * 100` fits `long` (is at most `LONG_MAX`), and every `v` in
[0, 100],
`asound_set_volume(v)` writes `raw = pmin + (pmax - pmin) * v / 100` to every
sub-channel and `asound_get_volume()` then returns
`r = 100 * (raw - pmin) / (pmax - pmin)` with `r ≤ v`; `|r - v| ≤ 1` holds
exactly when `(pmax - pmin) * v mod 100 ≤ pmax - pmin`, in particular whenever
`pmax - pmin ≥ 99`, and for `v ∈ {0, 1, 50, 99, 100}` whenever
`pmax - pmin ≥ 50`. -/
theorem set_get_volume_round_trip (s : State) (elem : Nat) (m : Mixer) (e : Elem)
    (v : Int) (hb : Bound s elem m e) (hlt : e.pmin.val < e.pmax.val)
    (hfit : (e.pmax.val - e.pmin.val) * 100 ≤ LONG_MAX)
    (hv0 : 0 ≤ v) (hv1 : v ≤ 100) :
    ∃ (s1 : State) (m1 : Mixer) (raw : Long) (r : Int),
      raw.val = e.pmin.val + Int.tdiv ((e.pmax.val - e.pmin.val) * v) 100 ∧
      asound_set_volume v s = .ok s1 ∧
      Bound s1 elem m1 (e.with_volume raw) ∧
      asound_get_volume s1 = .ok r ∧
      r = Int.tdiv (100 * (raw.val - e.pmin.val)) (e.pmax.val - e.pmin.val) ∧
      r ≤ v ∧
      (|r - v| ≤ 1 ↔ (e.pmax.val - e.pmin.val) * v % 100 ≤ e.pmax.val - e.pmin.val) ∧
      (99 ≤ e.pmax.val - e.pmin.val → |r - v| ≤ 1) ∧
      (50 ≤ e.pmax.val - e.pmin.val → (v = 0 ∨ v = 1 ∨ v = 50 ∨ v = 99 ∨ v = 100) →
        |r - v| ≤ 1) := by
  have hfit1 : (e.pmax.val - e.pmin.val) * 100 ≤ 9223372036854775807 := hfit
  have hd : 0 < e.pmax.val - e.pmin.val := by omega
  obtain ⟨hraw, hq0, hq1⟩ := set_volume_value_of_fits e v hlt hv0 hv1 hfit1
  have hb1 := bound_after_set_volume_all s elem m e hb (wrap_long (e.pmin.val +
    Int.tdiv (wrap_long ((wrap_long (e.pmax.val - e.pmin.val)).val * v)).val 100))
  have hprod : 100 * Int.tdiv ((e.pmax.val - e.pmin.val) * v) 100
      ≤ (e.pmax.val - e.pmin.val) * 100 := by
    have hp0 : 0 ≤ (e.pmax.val - e.pmin.val) * v := mul_nonneg hd.le hv0
    have h1 : (e.pmax.val - e.pmin.val) * v / 100 * 100 ≤ (e.pmax.val - e.pmin.val) * v :=
      Int.ediv_mul_le _ (by norm_num)
    have h2 : (e.pmax.val - e.pmin.val) * v ≤ (e.pmax.val - e.pmin.val) * 100 :=
      mul_le_mul_of_nonneg_left hv1 hd.le
    rw [Int.tdiv_eq_ediv hp0 (by norm_num)]
    omega
  have hg := get_volume_of_bound _ _ _ _ hb1
    (by simpa [Elem.with_volume] using hlt)
    (by simp only [Elem.with_volume]; rw [hraw]; omega)
    (by simp only [Elem.with_volume]; rw [hraw]; omega)
    (by simp only [Elem.with_volume]; omega)
    (by simp only [Elem.with_volume]; rw [hraw]; omega)
  simp only [Elem.with_volume] at hg
  rw [hraw] at hg
  obtain ⟨hle, hiff⟩ := tdiv_round_trip_bounds (e.pmax.val - e.pmin.val) v hd hv0
  have habs : ∀ r : Int, r ≤ v → (|r - v| ≤ 1 ↔ v - 1 ≤ r) := by
    intro r hr
    rw [abs_le]
    constructor
    · intro h; omega
    · intro h; constructor <;> omega
  have hmain : |Int.tdiv (100 * Int.tdiv ((e.pmax.val - e.pmin.val) * v) 100)
        (e.pmax.val - e.pmin.val) - v| ≤ 1
      ↔ (e.pmax.val - e.pmin.val) * v % 100 ≤ e.pmax.val - e.pmin.val :=
    (habs _ hle).trans hiff
  have hsimp : e.pmin.val + Int.tdiv ((e.pmax.val - e.pmin.val) * v) 100 - e.pmin.val
      = Int.tdiv ((e.pmax.val - e.pmin.val) * v) 100 := by omega
  rw [hsimp] at hg
  refine ⟨_, _, _, _, hraw, set_volume_of_bound s elem m e hb v hv0 hv1, hb1, hg, ?_,
    hle, hmain, ?_, ?_⟩
  · rw [hraw, hsimp]
  · intro h99
    have hlt100 : (e.pmax.val - e.pmin.val) * v % 100 < 100 :=
      Int.emod_lt_of_pos _ (by norm_num)
    exact hmain.mpr (by omega)
  · intro h50 hfive
    exact hmain.mpr (five_point_remainder _ _ h50 hfive)

/-- Witness for C1 (amended): a wide-range device, range [0, 65536], request 99. -/
theorem set_get_volume_round_trip_witness :
    Bound (single_state (mk_elem "Master" true 0 65536 7)) 0
        (mk_card [{ mk_elem "Master" true 0 65536 7 with callback := true }])
        { mk_elem "Master" true 0 65536 7 with callback := true } ∧
      ∃ s1 r, asound_set_volume 99 (single_state (mk_elem "Master" true 0 65536 7)) = .ok s1 ∧
        asound_get_volume s1 = .ok r ∧ |r - 99| ≤ 1 := by
  refine ⟨by decide, ?_⟩
  obtain ⟨s1, _, _, r, _, h1, _, h2, _, _, _, h3, _⟩ :=
    set_get_volume_round_trip (single_state (mk_elem "Master" true 0 65536 7)) 0
      (mk_card [{ mk_elem "Master" true 0 65536 7 with callback := true }])
      { mk_elem "Master" true 0 65536 7 with callback := true } 99
      (by decide) (by decide) (by decide) (by decide) (by decide)
  exact ⟨s1, r, h1, h2, h3 (by decide)⟩

/-- C2: for a bound element with native range `pmin < pmax` whose sub-channel 0
holds `raw` with `pmin ≤ raw ≤ pmax`, the arithmetic being exact (the
difference `pmax - pmin` and the product `100 * (raw - pmin)` fit `long`, that
is, are at most `LONG_MAX`),
`asound_get_volume()` returns the truncated quotient
`r = 100 * (raw - pmin) / (pmax - pmin)`, that is
`r * (pmax - pmin) ≤ 100 * (raw - pmin) < (r + 1) * (pmax - pmin)`, and
`0 ≤ r ≤ 100`. -/
theorem get_volume_normalized (s : State) (elem : Nat) (m : Mixer) (e : Elem)
    (hb : Bound s elem m e) (hr : e.pmin.val < e.pmax.val)
    (h0 : e.pmin.val ≤ e.volume.val) (h1 : e.volume.val ≤ e.pmax.val)
    (hd : e.pmax.val - e.pmin.val ≤ LONG_MAX)
    (hfit : 100 * (e.volume.val - e.pmin.val) ≤ LONG_MAX) :
    ∃ r, asound_get_volume s = .ok r ∧
      r = Int.tdiv (100 * (e.volume.val - e.pmin.val)) (e.pmax.val - e.pmin.val) ∧
      r * (e.pmax.val - e.pmin.val) ≤ 100 * (e.volume.val - e.pmin.val) ∧
      100 * (e.volume.val - e.pmin.val) < (r + 1) * (e.pmax.val - e.pmin.val) ∧
      0 ≤ r ∧ r ≤ 100 := by
  have hd0 : 0 < e.pmax.val - e.pmin.val := by omega
  have hx : 0 ≤ e.volume.val - e.pmin.val := by omega
  have hd1 : e.pmax.val - e.pmin.val ≤ 9223372036854775807 := hd
  have hfit1 : 100 * (e.volume.val - e.pmin.val) ≤ 9223372036854775807 := hfit
  have hrange := tdiv_normalized_range (e.pmax.val - e.pmin.val) (e.volume.val - e.pmin.val)
    hd0 hx (by omega)
  refine ⟨_, get_volume_of_bound s elem m e hb hr h0 h1 hd1 hfit1, rfl, ?_, ?_,
    hrange.1, hrange.2⟩
  · rw [Int.tdiv_eq_ediv (by positivity) hd0.le]
    exact Int.ediv_mul_le _ hd0.ne'
  · rw [Int.tdiv_eq_ediv (by positivity) hd0.le]
    exact Int.lt_ediv_add_one_mul_self _ hd0

/-- Witness for C2: range [0, 3] with raw value 1 gives 33. -/
theorem get_volume_normalized_witness :
    Bound (single_state (mk_elem "Master" true 0 3 1)) 0
        (mk_card [{ mk_elem "Master" true 0 3 1 with callback := true }])
        { mk_elem "Master" true 0 3 1 with callback := true } ∧
      ∃ r, asound_get_volume (single_state (mk_elem "Master" true 0 3 1)) = .ok r ∧
        0 ≤ r ∧ r ≤ 100 := by
  refine ⟨by decide, ?_⟩
  obtain ⟨r, h1, _, _, _, h2, h3⟩ :=
    get_volume_normalized (single_state (mk_elem "Master" true 0 3 1)) 0
      (mk_card [{ mk_elem "Master" true 0 3 1 with callback := true }])
      { mk_elem "Master" true 0 3 1 with callback := true }
      (by decide) (by decide) (by decide) (by decide) (by decide) (by decide)
  exact ⟨r, h1, h2, h3⟩

/-- C4: for a bound element without playback switch and with `pmin < pmax`,
`asound_set_mute(TRUE)` sets every sub-channel to `pmin`, after which
`asound_get_volume()` returns 0; `asound_set_mute(FALSE)` then returns the
state unchanged, so `asound_get_volume()` still returns 0. -/
theorem set_mute_fallback_asymmetry (s : State) (elem : Nat) (m : Mixer) (e : Elem)
    (hb : Bound s elem m e) (hsw : e.has_playback_switch = false)
    (hr : e.pmin.val < e.pmax.val) :
    ∃ s1 m1 s2,
      asound_set_mute true s = .ok s1 ∧
      Bound s1 elem m1 (e.with_volume e.pmin) ∧
      asound_get_volume s1 = .ok 0 ∧
      asound_set_mute false s1 = .ok s2 ∧ s2 = s1 ∧
      asound_get_volume s2 = .ok 0 := by
  have hset : asound_set_mute true s = asound_set_volume 0 s := by
    obtain ⟨h1, h2, h3⟩ := hb
    simp [asound_set_mute, State.deref, h1, h2, h3, hsw]
  have hsv := set_volume_of_bound s elem m e hb 0 (by norm_num) (by norm_num)
  have hval : wrap_long (e.pmin.val +
      Int.tdiv (wrap_long ((wrap_long (e.pmax.val - e.pmin.val)).val * 0)).val 100)
      = e.pmin := by
    have h0 : (wrap_long ((wrap_long (e.pmax.val - e.pmin.val)).val * 0)).val = 0 := by
      simp [wrap_long]
    rw [h0]
    simpa using wrap_long_val_self e.pmin
  rw [hval] at hsv
  have hb1 := bound_after_set_volume_all s elem m e hb e.pmin
  have hg : asound_get_volume
      (s.with_mixer (snd_mixer_selem_set_playback_volume_all m elem e.pmin)) = .ok 0 :=
    get_volume_at_pmin _ _ _ _ hb1 (by simpa [Elem.with_volume] using hr)
      (by simp [Elem.with_volume])
  have hun : asound_set_mute false
      (s.with_mixer (snd_mixer_selem_set_playback_volume_all m elem e.pmin))
      = .ok (s.with_mixer (snd_mixer_selem_set_playback_volume_all m elem e.pmin)) := by
    obtain ⟨h1, h2, h3⟩ := hb1
    simp [asound_set_mute, State.deref, h1, h2, h3, hsw, Elem.with_volume]
  exact ⟨_, _, _, hset.trans hsv, hb1, hg, hun, rfl, hg⟩

/-- Witness for C4: range [0, 65536] at raw value 40000, no switch. -/
theorem set_mute_fallback_asymmetry_witness :
    Bound (single_state (mk_elem "Master" true 0 65536 40000)) 0
        (mk_card [{ mk_elem "Master" true 0 65536 40000 with callback := true }])
        { mk_elem "Master" true 0 65536 40000 with callback := true } ∧
      ∃ s1, asound_set_mute true (single_state (mk_elem "Master" true 0 65536 40000)) = .ok s1 ∧
        asound_get_volume s1 = .ok 0 ∧ asound_set_mute false s1 = .ok s1 := by
  refine ⟨by decide, ?_⟩
  obtain ⟨s1, _, s2, h1, _, h2, h3, h4, _⟩ :=
    set_mute_fallback_asymmetry (single_state (mk_elem "Master" true 0 65536 40000)) 0
      (mk_card [{ mk_elem "Master" true 0 65536 40000 with callback := true }])
      { mk_elem "Master" true 0 65536 40000 with callback := true }
      (by decide) (by decide) (by decide)
  exact ⟨s1, h1, h2, h4 ▸ h3⟩

/-- C5 fails on the code: after `asound_setup` on a card whose only element
"Master" reports the native range [0, 0] with raw value 0, the element is
bound (`m_elem` is not NULL, the assertion passes) and `asound_get_volume()`
divides by `pmax - pmin = 0`. -/
theorem get_volume_flat_range_divides_by_zero :
    asound_setup (mk_card [mk_elem "Master" true 0 0 0]) "default" none State.init
        = .ok (single_state (mk_elem "Master" true 0 0 0)) ∧
      (single_state (mk_elem "Master" true 0 0 0)).m_elem = some 0 ∧
      asound_get_volume (single_state (mk_elem "Master" true 0 0 0))
        = .error Fault.div_by_zero := by
  decide

/-! ## Setup: registry and initial binding -/

theorem setup_loop_eq (es : List Elem) (names : List String) :
    setup_loop es names = names ++ playback_volume_names es := by
  induction es generalizing names with
  | nil => simp [setup_loop, playback_volume_names]
  | cons e es ih =>
    cases h : e.has_playback_volume <;>
      simp [setup_loop, ih, h, playback_volume_names, g_list_append, List.filter_cons]

theorem playback_volume_names_load (hw : Mixer) :
    playback_volume_names (snd_mixer_load hw).elems = playback_volume_names hw.elems := by
  simp only [snd_mixer_load, playback_volume_names]
  induction hw.elems with
  | nil => simp
  | cons e es ih =>
    cases h : e.has_playback_volume <;> simp_all [List.filter_cons]

theorem channel_exists_loop_iff (c : String) (names : List String) :
    channel_exists_loop (some c) names = true ↔ c ∈ names := by
  induction names with
  | nil => simp [channel_exists_loop]
  | cons n ns ih =>
    by_cases h : c = n
    · simp [channel_exists_loop, g_strcmp0, h]
    · simp [channel_exists_loop, g_strcmp0, h, ih]

theorem channel_exists_loop_null (names : List String) :
    channel_exists_loop none names = false := by
  induction names with
  | nil => simp [channel_exists_loop]
  | cons n ns ih => simp [channel_exists_loop, g_strcmp0, ih]

theorem setup_card_too_long (hw : Mixer) (card : String) (channel : Option String)
    (hcard : 128 ≤ card.utf8ByteSize) :
    asound_setup hw card channel State.init = .error Fault.buffer_overflow := by
  simp [asound_setup, State.init, M_CARD_SIZE, hcard]

theorem setup_init_eq (hw : Mixer) (card : String) (channel : Option String)
    (hcard : card.utf8ByteSize < 128) :
    asound_setup hw card channel State.init =
      if channel ≠ none ∧ channel_exists_loop channel (playback_volume_names hw.elems) = true then
        asound_set_channel channel (setup_unbound hw card)
      else
        match playback_volume_names hw.elems with
        | first :: _ => asound_set_channel (some first) (setup_unbound hw card)
        | [] => .ok (setup_unbound hw card) := by
  have hload : (snd_mixer_load hw).poll_descriptors_count = hw.poll_descriptors_count ∧
      (snd_mixer_load hw).poll_descriptors = hw.poll_descriptors := ⟨rfl, rfl⟩
  have hnames := playback_volume_names_load hw
  have hfits : ¬ (M_CARD_SIZE ≤ card.utf8ByteSize) := by
    simp only [M_CARD_SIZE]
    omega
  by_cases hp : 1 ≤ hw.poll_descriptors_count ∧ hw.poll_descriptors = 1
  · simp [asound_setup, State.init, asound_channel_exists, setup_unbound, hload, hp,
      setup_loop_eq, hnames, hfits]
  · simp [asound_setup, State.init, asound_channel_exists, setup_unbound, hload, hp,
      setup_loop_eq, hnames, hfits]

theorem find_selem_modifyAt (f : Elem → Elem) (hf : ∀ e, (f e).key = e.key)
    (es : List Elem) (i : Nat) (name : String) :
    snd_mixer_find_selem (modifyAt f es i) name = snd_mixer_find_selem es name := by
  induction es generalizing i with
  | nil => simp [modifyAt]
  | cons e es ih =>
    cases i with
    | zero =>
      have h := hf e
      simp only [Elem.key, Prod.mk.injEq] at h
      simp [modifyAt, snd_mixer_find_selem, h.1, h.2]
    | succ i => simp [modifyAt, snd_mixer_find_selem, ih]

theorem find_selem_some (es : List Elem) (name : String) (j : Nat)
    (h : snd_mixer_find_selem es name = some j) :
    ∃ e, es[j]? = some e ∧ e.name = name ∧ e.index = 0 := by
  induction es generalizing j with
  | nil => simp [snd_mixer_find_selem] at h
  | cons e es ih =>
    by_cases hk : e.name = name ∧ e.index = 0
    · simp [snd_mixer_find_selem, hk] at h
      subst h
      exact ⟨e, by simp, hk.1, hk.2⟩
    · simp only [snd_mixer_find_selem, hk, if_false] at h
      cases hf : snd_mixer_find_selem es name with
      | none => simp [hf] at h
      | some k =>
        simp only [hf, Option.map_some', Option.some.injEq] at h
        subst h
        obtain ⟨e1, h1, h2⟩ := ih k hf
        exact ⟨e1, by simpa using h1, h2⟩

theorem set_channel_rebinds (s : State) (name : String) (m : Mixer)
    (hm : s.m_mixer = some m) (hne : s.m_channel ≠ some name) :
    asound_set_channel (some name) s =
      .ok (s.rebind name (snd_mixer_find_selem m.elems name)
        (rebind_mixer m s.m_elem (snd_mixer_find_selem m.elems name))) := by
  have hne1 : ¬ (some name = s.m_channel) := fun h => hne h.symm
  have hfind : ∀ i, snd_mixer_find_selem (snd_mixer_elem_set_callback m i false).elems name
      = snd_mixer_find_selem m.elems name := by
    intro i
    exact find_selem_modifyAt (fun e => { e with callback := false }) (fun e => rfl) _ _ _
  cases ho : s.m_elem <;>
    simp [asound_set_channel, hm, g_strcmp0, hne1, ho, State.rebind, rebind_mixer, hfind]

theorem set_channel_same (s : State) (name : String) (m : Mixer)
    (hm : s.m_mixer = some m) (heq : s.m_channel = some name) :
    asound_set_channel (some name) s = .ok s := by
  simp [asound_set_channel, hm, g_strcmp0, heq]

theorem rebind_mixer_getElem (m : Mixer) (old found : Option Nat) (i : Nat) :
    (rebind_mixer m old found).elems[i]? = (m.elems[i]?).map (fun e =>
      { e with callback :=
          if found = some i then true else if old = some i then false else e.callback }) := by
  cases old <;> cases found <;>
    simp only [rebind_mixer, snd_mixer_elem_set_callback, modifyAt_getElem]
  · cases m.elems[i]? <;> simp
  · rename_i j
    by_cases h : i = j
    · subst h; cases m.elems[i]? <;> simp
    · have : ¬ (j = i) := fun h1 => h h1.symm
      cases m.elems[i]? <;> simp [h, this]
  · rename_i k
    by_cases h : i = k
    · subst h; cases m.elems[i]? <;> simp
    · have : ¬ (k = i) := fun h1 => h h1.symm
      cases m.elems[i]? <;> simp [h, this]
  · rename_i k j
    by_cases h : i = j
    · subst h
      by_cases h2 : i = k
      · subst h2; cases m.elems[i]? <;> simp
      · have : ¬ (k = i) := fun h1 => h2 h1.symm
        cases m.elems[i]? <;> simp [h2, this]
    · have hj : ¬ (j = i) := fun h1 => h h1.symm
      by_cases h2 : i = k
      · subst h2; cases m.elems[i]? <;> simp [h, hj]
      · have : ¬ (k = i) := fun h1 => h2 h1.symm
        cases m.elems[i]? <;> simp [h, hj, h2, this]

theorem setup_unbound_set_channel (hw : Mixer) (card name : String) :
    asound_set_channel (some name) (setup_unbound hw card) =
      .ok ((setup_unbound hw card).rebind name
        (snd_mixer_find_selem (snd_mixer_load hw).elems name)
        (rebind_mixer (snd_mixer_load hw) none
          (snd_mixer_find_selem (snd_mixer_load hw).elems name))) :=
  set_channel_rebinds (setup_unbound hw card) name (snd_mixer_load hw) rfl
    (by simp [setup_unbound])

theorem setup_names_eq (hw : Mixer) (card : String)
    (channel : Option String) (hcard : card.utf8ByteSize < 128) :
    ∃ s, asound_setup hw card channel State.init = .ok s ∧
      asound_get_channel_names s = playback_volume_names hw.elems := by
  rw [setup_init_eq hw card channel hcard]
  split
  · rename_i h
    cases channel with
    | none => exact absurd rfl h.1
    | some c => exact ⟨_, setup_unbound_set_channel hw card c, rfl⟩
  · split
    · rename_i first rest hnames
      exact ⟨_, setup_unbound_set_channel hw card first, rfl⟩
    · exact ⟨_, rfl, rfl⟩

/-- C8: for every element sequence of the card and every card name that fits
`m_card` (fewer than 128 bytes), `asound_setup` returns and the list behind
`asound_get_channel_names()` is the list of names of exactly the elements with
playback-volume capability, in enumeration order, one entry per such element
(duplicate names are kept). -/
theorem setup_registry_enumeration (hw : Mixer) (card : String) (channel : Option String)
    (hcard : card.utf8ByteSize < 128) :
    ∃ s, asound_setup hw card channel State.init = .ok s ∧
      asound_get_channel_names s =
        (hw.elems.filter (fun e => e.has_playback_volume)).map (fun e => e.name) ∧
      (asound_get_channel_names s).length =
        hw.elems.countP (fun e => e.has_playback_volume) := by
  obtain ⟨s, h1, h2⟩ := setup_names_eq hw card channel hcard
  refine ⟨s, h1, h2, ?_⟩
  rw [h2, playback_volume_names, List.length_map, List.countP_eq_length_filter]

/-- Witness for C8: a card with "Master", "Capture" (no playback volume),
"PCM" and a second "PCM"; the registry keeps both "PCM" entries. -/
theorem setup_registry_enumeration_witness :
    "default".utf8ByteSize < 128 ∧
      ∃ s, asound_setup duplicate_card "default" none State.init = .ok s ∧
        asound_get_channel_names s = ["Master", "PCM", "PCM"] := by
  refine ⟨by decide, ?_⟩
  obtain ⟨s, h1, h2, _⟩ := setup_registry_enumeration duplicate_card "default" none (by decide)
  exact ⟨s, h1, h2.trans (by decide)⟩

/-- C7: for a card name that fits `m_card` (fewer than 128 bytes),
`asound_setup` returns; `asound_channel_exists(c)` holds exactly when
`c` is a registry entry (and never for NULL); on a non-empty registry
`asound_get_channel()` is `channel` when `channel` is non-null and exists, and
the first registry entry otherwise; on an empty registry no element is bound
and `asound_get_channel()` is NULL. -/
theorem setup_initial_binding (hw : Mixer) (card : String) (channel : Option String)
    (hcard : card.utf8ByteSize < 128) :
    ∃ s, asound_setup hw card channel State.init = .ok s ∧
      (∀ c, asound_channel_exists s (some c) = true ↔ c ∈ asound_get_channel_names s) ∧
      asound_channel_exists s none = false ∧
      (∀ first rest, asound_get_channel_names s = first :: rest →
        asound_get_channel s =
          if channel ≠ none ∧ asound_channel_exists s channel = true then channel
          else some first) ∧
      (asound_get_channel_names s = [] → s.m_elem = none ∧ asound_get_channel s = none) := by
  have hex : ∀ s : State, (∀ c, asound_channel_exists s (some c) = true ↔
      c ∈ asound_get_channel_names s) ∧ asound_channel_exists s none = false :=
    fun s => ⟨fun c => channel_exists_loop_iff c _, channel_exists_loop_null _⟩
  rw [setup_init_eq hw card channel hcard]
  split
  · rename_i h
    cases channel with
    | none => exact absurd rfl h.1
    | some c =>
      refine ⟨_, setup_unbound_set_channel hw card c, (hex _).1, (hex _).2, ?_, ?_⟩
      · intro first rest _
        have h2 : asound_channel_exists ((setup_unbound hw card).rebind c
            (snd_mixer_find_selem (snd_mixer_load hw).elems c)
            (rebind_mixer (snd_mixer_load hw) none
              (snd_mixer_find_selem (snd_mixer_load hw).elems c))) (some c) = true := h.2
        rw [if_pos ⟨h.1, h2⟩]
        rfl
      · intro hnil
        have h2 := h.2
        have hnil1 : playback_volume_names hw.elems = [] := hnil
        rw [hnil1] at h2
        simp [channel_exists_loop] at h2
  · rename_i h
    have hno : ∀ s : State, s.m_channel_names = playback_volume_names hw.elems →
        ¬ (channel ≠ none ∧ asound_channel_exists s channel = true) := by
      intro s hs hc
      apply h
      refine ⟨hc.1, ?_⟩
      have := hc.2
      rwa [asound_channel_exists, hs] at this
    split
    · rename_i first rest hnames
      refine ⟨_, setup_unbound_set_channel hw card first, (hex _).1, (hex _).2, ?_, ?_⟩
      · intro first1 rest1 h1
        have h3 : playback_volume_names hw.elems = first1 :: rest1 := h1
        rw [hnames] at h3
        rw [if_neg (hno _ rfl)]
        simp only [List.cons.injEq] at h3
        simp [asound_get_channel, State.rebind, h3.1]
      · intro hnil
        have hnil1 : playback_volume_names hw.elems = [] := hnil
        rw [hnames] at hnil1
        exact absurd hnil1 (by simp)
    · rename_i hnames
      refine ⟨_, rfl, (hex _).1, (hex _).2, ?_, ?_⟩
      · intro first rest h1
        have h3 : playback_volume_names hw.elems = first :: rest := h1
        rw [hnames] at h3
        exact absurd h3 (by simp)
      · intro _
        exact ⟨rfl, rfl⟩

/-- Witness for C7: on the "Master"/"PCM" card the request "PCM" is bound, and
the request "Line", which is no registry entry, falls back to "Master". -/
theorem setup_initial_binding_witness :
    "default".utf8ByteSize < 128 ∧
      (∃ s, asound_setup master_pcm_card "default" (some "PCM") State.init = .ok s ∧
        asound_get_channel s = some "PCM") ∧
      (∃ s, asound_setup master_pcm_card "default" (some "Line") State.init = .ok s ∧
        asound_get_channel s = some "Master") := by
  refine ⟨by decide, ?_, ?_⟩
  · obtain ⟨s, h1, h2, _, h3, _⟩ :=
      setup_initial_binding master_pcm_card "default" (some "PCM") (by decide)
    have hn := setup_names_eq master_pcm_card "default" (some "PCM") (by decide)
    obtain ⟨s0, h4, h5⟩ := hn
    rw [h1] at h4
    cases h4
    have h6 := h3 "Master" ["PCM"] (h5.trans (by decide))
    have h7 : asound_channel_exists s (some "PCM") = true := (h2 "PCM").mpr (by rw [h5]; decide)
    rw [if_pos ⟨by simp, h7⟩] at h6
    exact ⟨s, h1, h6⟩
  · obtain ⟨s, h1, h2, _, h3, _⟩ :=
      setup_initial_binding master_pcm_card "default" (some "Line") (by decide)
    have hn := setup_names_eq master_pcm_card "default" (some "Line") (by decide)
    obtain ⟨s0, h4, h5⟩ := hn
    rw [h1] at h4
    cases h4
    have h6 := h3 "Master" ["PCM"] (h5.trans (by decide))
    have h7 : ¬ (asound_channel_exists s (some "Line") = true) := by
      rw [h2 "Line", h5]
      decide
    rw [if_neg (fun h => h7 h.2)] at h6
    exact ⟨s, h1, h6⟩

/-! ## Reachable states keep the callback on the bound element -/

theorem modifyAt_map_tag (f : Elem → Elem) (hf : ∀ e, (f e).tag = e.tag)
    (es : List Elem) (i : Nat) : (modifyAt f es i).map Elem.tag = es.map Elem.tag := by
  induction es generalizing i with
  | nil => simp [modifyAt]
  | cons e es ih =>
    cases i with
    | zero => simp [modifyAt, hf]
    | succ i => simp [modifyAt, ih]

theorem modifyAt_map_key (f : Elem → Elem) (hf : ∀ e, (f e).key = e.key)
    (es : List Elem) (i : Nat) : (modifyAt f es i).map Elem.key = es.map Elem.key := by
  induction es generalizing i with
  | nil => simp [modifyAt]
  | cons e es ih =>
    cases i with
    | zero => simp [modifyAt, hf]
    | succ i => simp [modifyAt, ih]

theorem map_key_of_map_tag (es es1 : List Elem) (h : es1.map Elem.tag = es.map Elem.tag) :
    es1.map Elem.key = es.map Elem.key := by
  have h1 := congrArg (List.map (fun t : String × Nat × Bool => (t.1, t.2.1))) h
  simpa [List.map_map, Function.comp_def, Elem.tag, Elem.key] using h1

theorem find_selem_congr (es es1 : List Elem) (h : es1.map Elem.key = es.map Elem.key)
    (name : String) : snd_mixer_find_selem es1 name = snd_mixer_find_selem es name := by
  induction es generalizing es1 with
  | nil =>
    have : es1 = [] := by simpa using h
    subst this; rfl
  | cons e es ih =>
    cases es1 with
    | nil => simp at h
    | cons e1 es1 =>
      simp only [List.map_cons, List.cons.injEq, Elem.key, Prod.mk.injEq] at h
      simp [snd_mixer_find_selem, h.1.1, h.1.2, ih es1 h.2]

theorem callbackExact_of_map_tag (m m1 : Mixer) (bound : Option Nat)
    (h : m1.elems.map Elem.tag = m.elems.map Elem.tag) (hc : CallbackExact m bound) :
    CallbackExact m1 bound := by
  intro i e1 he1
  have h1 : (m1.elems.map Elem.tag)[i]? = some e1.tag := by simp [he1]
  rw [h] at h1
  simp only [List.getElem?_map, Option.map_eq_some'] at h1
  obtain ⟨e, he, htag⟩ := h1
  have hcb : e.callback = e1.callback := by
    simp only [Elem.tag, Prod.mk.injEq] at htag
    exact htag.2.2
  rw [← hcb]
  exact hc i e he

theorem inv_of_same_tags (hw : Mixer) (s s1 : State) (m m1 : Mixer) (hi : Inv hw s)
    (hm : s.m_mixer = some m) (hm1 : s1.m_mixer = some m1)
    (ht : m1.elems.map Elem.tag = m.elems.map Elem.tag)
    (he : s1.m_elem = s.m_elem) (hc : s1.m_channel = s.m_channel) : Inv hw s1 := by
  obtain ⟨m0, h0, h1, h2, h3⟩ := hi
  rw [hm] at h0
  cases h0
  refine ⟨m1, hm1, ?_, ?_, ?_⟩
  · rw [he]; exact callbackExact_of_map_tag m m1 _ ht h1
  · rw [map_key_of_map_tag _ _ ht]; exact h2
  · rw [he, hc]; exact h3

theorem set_volume_ok_shape (v : Int) (s s1 : State) (h : asound_set_volume v s = .ok s1) :
    ∃ m elem value, s.m_mixer = some m ∧
      s1 = s.with_mixer (snd_mixer_selem_set_playback_volume_all m elem value) := by
  unfold asound_set_volume at h
  cases he : s.m_elem with
  | none => simp [he] at h
  | some elem =>
    cases hm : s.m_mixer with
    | none => simp [he, hm, State.deref] at h; split at h <;> simp at h
    | some m =>
      simp only [he, State.deref, hm] at h
      split at h
      · simp at h
      · cases hx : m.elems[elem]? with
        | none => simp [hx] at h
        | some e =>
          simp only [hx, Except.ok.injEq] at h
          exact ⟨m, elem, _, rfl, h.symm⟩

theorem set_volume_all_map_tag (m : Mixer) (elem : Nat) (value : Long) :
    (snd_mixer_selem_set_playback_volume_all m elem value).elems.map Elem.tag
      = m.elems.map Elem.tag :=
  modifyAt_map_tag
    (fun e => { e with volume := value, volume_others := e.volume_others.map (fun _ => value) })
    (fun _ => rfl) _ _

theorem set_switch_all_map_tag (m : Mixer) (elem : Nat) (value : Int) :
    (snd_mixer_selem_set_playback_switch_all m elem value).elems.map Elem.tag
      = m.elems.map Elem.tag :=
  modifyAt_map_tag
    (fun e => { e with pswitch := value, pswitch_others := e.pswitch_others.map (fun _ => value) })
    (fun _ => rfl) _ _

theorem inv_set_volume (hw : Mixer) (v : Int) (s s1 : State) (hi : Inv hw s)
    (h : asound_set_volume v s = .ok s1) : Inv hw s1 := by
  obtain ⟨m, elem, value, hm, rfl⟩ := set_volume_ok_shape v s s1 h
  exact inv_of_same_tags hw s _ m _ hi hm rfl (set_volume_all_map_tag m elem value) rfl rfl

theorem inv_set_mute (hw : Mixer) (mute : Bool) (s s1 : State) (hi : Inv hw s)
    (h : asound_set_mute mute s = .ok s1) : Inv hw s1 := by
  unfold asound_set_mute at h
  cases he : s.m_elem with
  | none => simp [he] at h
  | some elem =>
    cases hm : s.m_mixer with
    | none => simp [he, hm, State.deref] at h
    | some m =>
      cases hx : m.elems[elem]? with
      | none => simp [he, hm, State.deref, hx] at h
      | some e =>
        simp only [he, State.deref, hm, hx] at h
        split at h
        · simp only [Except.ok.injEq] at h
          subst h
          exact inv_of_same_tags hw s _ m _ hi hm rfl (set_switch_all_map_tag m elem _) rfl rfl
        · split at h
          · exact inv_set_volume hw 0 s s1 hi h
          · simp only [Except.ok.injEq] at h
            subst h
            exact hi

theorem inv_external (hw : Mixer) (elem : Nat) (value : Long) (s : State) (hi : Inv hw s) :
    Inv hw (external_volume_change elem value s) := by
  obtain ⟨m, hm, _⟩ := id hi
  refine inv_of_same_tags hw s _ m
    { snd_mixer_selem_set_playback_volume_all m elem value with
      pending := (snd_mixer_selem_set_playback_volume_all m elem value).pending ++ [elem] }
    hi hm ?_ (set_volume_all_map_tag m elem value) ?_ ?_ <;>
    simp [external_volume_change, hm, State.with_mixer]

theorem elem_event_ok_shape (elem : Nat) (s s1 : State)
    (h : asound_elem_event elem s = .ok s1) :
    ∃ calls, s1 = { s with volume_changed_calls := calls } := by
  unfold asound_elem_event at h
  split at h
  · simp at h
  · split at h
    · simp at h
    · split at h
      · simp at h
      · split at h
        · simp only [Except.ok.injEq] at h
          exact ⟨_, h.symm⟩
        · simp at h

theorem dispatch_events_ok_shape (events : List Nat) (s s1 : State)
    (h : dispatch_events events s = .ok s1) :
    ∃ calls, s1 = { s with volume_changed_calls := calls } := by
  induction events generalizing s with
  | nil =>
    simp only [dispatch_events, Except.ok.injEq] at h
    exact ⟨s.volume_changed_calls, h.symm⟩
  | cons elem later ih =>
    unfold dispatch_events at h
    split at h
    · simp at h
    · split at h
      · split at h
        · simp at h
        · rename_i s2 hev
          obtain ⟨c2, rfl⟩ := elem_event_ok_shape elem s s2 hev
          obtain ⟨c1, rfl⟩ := ih _ h
          exact ⟨c1, rfl⟩
      · exact ih s h

theorem poll_cb_ok_shape (s s1 : State) (keep : Bool) (m : Mixer) (hm : s.m_mixer = some m)
    (h : asound_poll_cb s = .ok (keep, s1)) :
    ∃ calls pending, s1 = { s.with_mixer { m with pending := pending } with
      volume_changed_calls := calls } := by
  unfold asound_poll_cb snd_mixer_handle_events at h
  simp only [hm] at h
  by_cases herr : m.handle_error < 0
  · simp only [herr, if_true, Prod.mk.injEq, Except.ok.injEq] at h
    refine ⟨s.volume_changed_calls, m.pending, ?_⟩
    rw [← h.2]
    cases s
    simp only [State.with_mixer] at hm ⊢
    rw [hm]
  · simp only [herr, if_false] at h
    cases hd : dispatch_events m.pending (s.with_mixer { m with pending := [] }) with
    | error f => simp [hd] at h
    | ok s2 =>
      obtain ⟨calls, rfl⟩ := dispatch_events_ok_shape _ _ _ hd
      simp only [hd] at h
      split at h <;>
      · simp only [Prod.mk.injEq, Except.ok.injEq] at h
        exact ⟨calls, [], h.2.symm⟩

theorem inv_poll (hw : Mixer) (keep : Bool) (s s1 : State) (hi : Inv hw s)
    (h : asound_poll_cb s = .ok (keep, s1)) : Inv hw s1 := by
  obtain ⟨m, hm, _⟩ := id hi
  obtain ⟨calls, pending, rfl⟩ := poll_cb_ok_shape s s1 keep m hm h
  exact inv_of_same_tags hw s _ m { m with pending := pending } hi hm rfl rfl rfl rfl

theorem callbackExact_rebind (m : Mixer) (old found : Option Nat)
    (hc : CallbackExact m old) : CallbackExact (rebind_mixer m old found) found := by
  intro i e1 he1
  rw [rebind_mixer_getElem] at he1
  cases he : m.elems[i]? with
  | none => simp [he] at he1
  | some e =>
    simp only [he, Option.map_some', Option.some.injEq] at he1
    subst he1
    by_cases h1 : found = some i
    · simp [h1]
    · by_cases h2 : old = some i
      · simp [h1, h2]
      · have h3 := hc i e he
        simp only [h1, h2, if_false, iff_false]
        intro h4
        exact h2 (h3.mp h4)

theorem rebind_mixer_map_key (m : Mixer) (old found : Option Nat) :
    (rebind_mixer m old found).elems.map Elem.key = m.elems.map Elem.key := by
  have hk : ∀ (b : Bool) (es : List Elem) (i : Nat),
      (modifyAt (fun e => { e with callback := b }) es i).map Elem.key = es.map Elem.key :=
    fun b es i => modifyAt_map_key (fun e => { e with callback := b }) (fun _ => rfl) es i
  cases old <;> cases found <;> simp [rebind_mixer, snd_mixer_elem_set_callback, hk]

theorem inv_set_channel (hw : Mixer) (channel : Option String) (s s1 : State)
    (hi : Inv hw s) (h : asound_set_channel channel s = .ok s1) : Inv hw s1 := by
  cases channel with
  | none => simp [asound_set_channel] at h
  | some name =>
    obtain ⟨m, hm, hc, hk, hb⟩ := id hi
    by_cases heq : s.m_channel = some name
    · rw [set_channel_same s name m hm heq] at h
      cases h
      exact hi
    · rw [set_channel_rebinds s name m hm heq] at h
      cases h
      refine ⟨_, rfl, callbackExact_rebind m _ _ hc, ?_, ?_⟩
      · rw [rebind_mixer_map_key]; exact hk
      · simp [State.rebind, find_selem_congr hw.elems m.elems hk name]

theorem inv_setup_unbound (hw : Mixer) (card : String) : Inv hw (setup_unbound hw card) := by
  refine ⟨snd_mixer_load hw, rfl, ?_, ?_, rfl⟩
  · intro i e he
    simp only [snd_mixer_load, List.getElem?_map, Option.map_eq_some'] at he
    obtain ⟨e0, _, rfl⟩ := he
    simp [setup_unbound]
  · simp [snd_mixer_load, List.map_map, Function.comp_def, Elem.key]

theorem inv_setup (hw : Mixer) (card : String) (channel : Option String) (s : State)
    (h : asound_setup hw card channel State.init = .ok s) : Inv hw s := by
  by_cases hcard : card.utf8ByteSize < 128
  swap
  · rw [setup_card_too_long hw card channel (by omega)] at h
    cases h
  rw [setup_init_eq hw card channel hcard] at h
  split at h
  · exact inv_set_channel hw _ _ _ (inv_setup_unbound hw card) h
  · split at h
    · exact inv_set_channel hw _ _ _ (inv_setup_unbound hw card) h
    · cases h
      exact inv_setup_unbound hw card

theorem reachable_inv (hw : Mixer) (s : State) (hr : Reachable hw s) : Inv hw s := by
  induction hr with
  | setup card channel s h => exact inv_setup hw card channel s h
  | set_channel channel s s1 _ h ih => exact inv_set_channel hw channel s s1 ih h
  | set_volume volume s s1 _ h ih => exact inv_set_volume hw volume s s1 ih h
  | set_mute mute s s1 _ h ih => exact inv_set_mute hw mute s s1 ih h
  | external elem value s _ ih => exact inv_external hw elem value s ih
  | poll keep s s1 _ h ih => exact inv_poll hw keep s s1 ih h

theorem inv_bound_exists (hw : Mixer) (s : State) (m : Mixer) (hi : Inv hw s)
    (hm : s.m_mixer = some m) (i : Nat) (hb : s.m_elem = some i) :
    ∃ e, m.elems[i]? = some e ∧ e.callback = true := by
  obtain ⟨m0, hm0, hc, hk, hch⟩ := hi
  rw [hm] at hm0
  cases hm0
  rw [hb] at hch
  cases hn : s.m_channel with
  | none => simp [hn] at hch
  | some name =>
    simp only [hn, Option.some_bind] at hch
    rw [← find_selem_congr hw.elems m.elems hk name] at hch
    obtain ⟨e, he, _⟩ := find_selem_some _ _ _ hch.symm
    exact ⟨e, he, (hc i e he).mpr hb⟩

theorem elem_event_assertion_holds (s : State) (elem : Nat) (hg : GoodBinding s)
    (hb : s.m_elem = some elem) : asound_elem_event elem s ≠ .error Fault.assert_failed := by
  obtain ⟨m, hm, _, hex⟩ := hg
  obtain ⟨e, he⟩ := hex elem hb
  have hv : asound_get_volume s ≠ .error Fault.assert_failed := by
    simp only [asound_get_volume, hb, State.deref, hm, he]
    split
    · simp
    · split <;> simp
  have hmu : asound_get_mute s ≠ .error Fault.assert_failed := by
    simp only [asound_get_mute, hb, State.deref, hm, he]
    split <;> simp
  unfold asound_elem_event
  simp only [hb, ne_eq, not_true_eq_false, if_false]
  cases h1 : asound_get_volume s with
  | error f =>
    intro h2
    simp only [Except.error.injEq] at h2
    exact hv (by rw [h1, h2])
  | ok v =>
    cases h3 : asound_get_mute s with
    | error f =>
      intro h2
      simp only [Except.error.injEq] at h2
      exact hmu (by rw [h3, h2])
    | ok b =>
      simp only
      split <;> simp

theorem dispatch_events_assertion_holds (events : List Nat) (s : State)
    (hg : GoodBinding s) : dispatch_events events s ≠ .error Fault.assert_failed := by
  induction events generalizing s with
  | nil => simp [dispatch_events]
  | cons elem later ih =>
    obtain ⟨m, hm, hc, hex⟩ := id hg
    unfold dispatch_events
    cases hx : m.elems[elem]? with
    | none => simp [State.deref, hm, hx]
    | some e =>
      simp only [State.deref, hm, hx]
      by_cases hcb : e.callback = true
      · have hb : s.m_elem = some elem := (hc elem e hx).mp hcb
        simp only [hcb, if_true]
        cases hev : asound_elem_event elem s with
        | error f =>
          intro h2
          simp only [Except.error.injEq] at h2
          exact elem_event_assertion_holds s elem hg hb (by rw [hev, h2])
        | ok s2 =>
          obtain ⟨calls, rfl⟩ := elem_event_ok_shape elem s s2 hev
          exact ih _ ⟨m, hm, hc, hex⟩
      · simp only [hcb]
        exact ih s hg

theorem poll_cb_assertion_holds (s : State) (hg : GoodBinding s) :
    asound_poll_cb s ≠ .error Fault.assert_failed := by
  obtain ⟨m, hm, hc, hex⟩ := hg
  have hd := dispatch_events_assertion_holds m.pending (s.with_mixer { m with pending := [] })
    ⟨{ m with pending := [] }, rfl, hc, hex⟩
  unfold asound_poll_cb snd_mixer_handle_events
  simp only [hm]
  by_cases herr : m.handle_error < 0
  · simp [herr]
  · simp only [herr, if_false]
    cases h1 : dispatch_events m.pending (s.with_mixer { m with pending := [] }) with
    | error f =>
      intro h2
      simp only [Except.error.injEq] at h2
      exact hd (by rw [h1, h2])
    | ok s2 =>
      simp only
      split <;> simp

theorem callbackExact_none_all_off (m : Mixer) (hc : CallbackExact m none) :
    ∀ e ∈ m.elems, e.callback = false := by
  intro e he
  obtain ⟨i, hi⟩ := List.getElem?_of_mem he
  have := hc i e hi
  cases hcb : e.callback with
  | false => rfl
  | true => simp [hcb] at this

/-- C9: in every state reachable from `asound_setup` the mixer handle is open,
an element carries the callback `asound_elem_event` exactly when it is the
bound element (so none does when nothing is bound), the bound element exists
and carries it, and neither a dispatch of the callback on an element that
carries it nor a drain by `asound_poll_cb` fails the assertion
`m_elem == elem`. -/
theorem callback_exclusivity (hw : Mixer) (s : State) (hr : Reachable hw s) :
    ∃ m, s.m_mixer = some m ∧
      (∀ i e, m.elems[i]? = some e → (e.callback = true ↔ s.m_elem = some i)) ∧
      (∀ i, s.m_elem = some i → ∃ e, m.elems[i]? = some e ∧ e.callback = true) ∧
      (s.m_elem = none → ∀ e ∈ m.elems, e.callback = false) ∧
      (∀ i e, m.elems[i]? = some e → e.callback = true →
        asound_elem_event i s ≠ .error Fault.assert_failed) ∧
      asound_poll_cb s ≠ .error Fault.assert_failed := by
  have hi := reachable_inv hw s hr
  obtain ⟨m, hm, hc, hk, hch⟩ := id hi
  have hex := inv_bound_exists hw s m hi hm
  have hg : GoodBinding s :=
    ⟨m, hm, hc, fun i hb => (hex i hb).imp (fun _ h => h.1)⟩
  refine ⟨m, hm, hc, hex, ?_, ?_, poll_cb_assertion_holds s hg⟩
  · intro hnone
    rw [hnone] at hc
    exact callbackExact_none_all_off m hc
  · intro i e he hcb
    exact elem_event_assertion_holds s i hg ((hc i e he).mp hcb)

/-- Witness for C9: the state after setup on a card with the single element
"Master". -/
theorem callback_exclusivity_witness :
    Reachable (mk_card [mk_elem "Master" true 0 65536 0])
        (single_state (mk_elem "Master" true 0 65536 0)) ∧
      ∃ m, (single_state (mk_elem "Master" true 0 65536 0)).m_mixer = some m ∧
        ∀ i e, m.elems[i]? = some e →
          (e.callback = true ↔ (single_state (mk_elem "Master" true 0 65536 0)).m_elem = some i) := by
  have hr : Reachable (mk_card [mk_elem "Master" true 0 65536 0])
      (single_state (mk_elem "Master" true 0 65536 0)) :=
    Reachable.setup "default" none _ (by decide)
  obtain ⟨m, h1, h2, _⟩ := callback_exclusivity _ _ hr
  exact ⟨hr, m, h1, h2⟩

/-- C6, as stated, fails: on a card with "Master" (playback volume) and
"Capture" (no playback volume) the registry after setup is ["Master"], so
"Capture" is not a member; yet `asound_set_channel("Capture")` binds the
element at position 1, and `asound_get_volume()` and `asound_get_mute()` do not
fail the assertion `m_elem != NULL`. -/
theorem set_channel_binds_element_outside_registry :
    (asound_setup capture_card "default" none State.init).map asound_get_channel_names
        = .ok ["Master"] ∧
      "Capture" ∉ ["Master"] ∧
      ((asound_setup capture_card "default" none State.init).bind
        (asound_set_channel (some "Capture"))).map (fun s => (s.m_channel, s.m_elem))
        = .ok (some "Capture", some 1) ∧
      ((asound_setup capture_card "default" none State.init).bind
        (asound_set_channel (some "Capture"))).bind asound_get_volume
        ≠ .error Fault.assert_failed ∧
      ((asound_setup capture_card "default" none State.init).bind
        (asound_set_channel (some "Capture"))).bind asound_get_mute
        ≠ .error Fault.assert_failed := by
  decide

/-- C6, amended: in every state reachable after setup, for every non-null name
that `snd_mixer_find_selem` finds no element for, `asound_set_channel(name)`
returns normally; afterwards `asound_get_channel()` is that name, no element is
bound, no element carries the callback, and `asound_get_volume()` and
`asound_get_mute()` fail the assertion `m_elem != NULL`. -/
theorem set_channel_unknown_name (hw : Mixer) (s : State) (name : String)
    (hr : Reachable hw s) (hn : snd_mixer_find_selem hw.elems name = none) :
    ∃ s1 m1, asound_set_channel (some name) s = .ok s1 ∧
      asound_get_channel s1 = some name ∧
      s1.m_elem = none ∧
      s1.m_mixer = some m1 ∧ (∀ e ∈ m1.elems, e.callback = false) ∧
      asound_get_volume s1 = .error Fault.assert_failed ∧
      asound_get_mute s1 = .error Fault.assert_failed := by
  have hi := reachable_inv hw s hr
  obtain ⟨m, hm, _⟩ := id hi
  have hok : ∃ s1, asound_set_channel (some name) s = .ok s1 ∧ s1.m_channel = some name := by
    by_cases heq : s.m_channel = some name
    · exact ⟨s, set_channel_same s name m hm heq, heq⟩
    · exact ⟨_, set_channel_rebinds s name m hm heq, rfl⟩
  obtain ⟨s1, h1, h2⟩ := hok
  obtain ⟨m1, hm1, hc1, _, hch1⟩ := inv_set_channel hw _ s s1 hi h1
  have hnone : s1.m_elem = none := by
    rw [hch1, h2]
    simpa using hn
  rw [hnone] at hc1
  refine ⟨s1, m1, h1, h2, hnone, hm1, callbackExact_none_all_off m1 hc1, ?_, ?_⟩
  · simp [asound_get_volume, hnone]
  · simp [asound_get_mute, hnone]

/-- Witness for C6 (amended): "Line" names no element of the "Master"/"Capture"
card. -/
theorem set_channel_unknown_name_witness :
    snd_mixer_find_selem capture_card.elems "Line" = none ∧
      ∃ s, asound_setup capture_card "default" none State.init = .ok s ∧
        ∃ s1, asound_set_channel (some "Line") s = .ok s1 ∧
          asound_get_channel s1 = some "Line" ∧ s1.m_elem = none := by
  refine ⟨by decide, ?_⟩
  obtain ⟨s, hs, _⟩ := setup_names_eq capture_card "default" none (by decide)
  obtain ⟨s1, _, h1, h2, h3, _⟩ :=
    set_channel_unknown_name capture_card s "Line"
      (Reachable.setup "default" none s hs) (by decide)
  exact ⟨s, hs, s1, h1, h2, h3⟩

/-! ## End-to-end scenario -/

theorem poll_after_external_change (s : State) (elem : Nat) (m : Mixer) (e : Elem)
    (value : Long) (r : Int) (hb : Bound s elem m e) (hcb : e.callback = true)
    (hpend : m.pending = []) (herr : 0 ≤ m.handle_error)
    (hvc : s.m_volume_changed = true)
    (hgv : ∀ s1 m1, Bound s1 elem m1 (e.with_volume value) → asound_get_volume s1 = .ok r) :
    ∃ s3, asound_poll_cb (external_volume_change elem value s) = .ok (true, s3) ∧
      s3.volume_changed_calls = s.volume_changed_calls ++
        [(r, if e.has_playback_switch = true then (if e.pswitch ≠ 0 then false else true)
          else false)] := by
  obtain ⟨h1, h2, h3⟩ := hb
  have herr1 : ¬ (m.handle_error < 0) := by omega
  have hx : (snd_mixer_selem_set_playback_volume_all m elem value).elems[elem]?
      = some (e.with_volume value) :=
    (bound_after_set_volume_all s elem m e ⟨h1, h2, h3⟩ value).2.2
  have hp : (snd_mixer_selem_set_playback_volume_all m elem value).pending = [] := hpend
  have he : (snd_mixer_selem_set_playback_volume_all m elem value).handle_error
      = m.handle_error := rfl
  have hg := hgv
    ((s.with_mixer { snd_mixer_selem_set_playback_volume_all m elem value with
        pending := [elem] }).with_mixer
      { snd_mixer_selem_set_playback_volume_all m elem value with pending := [] })
    { snd_mixer_selem_set_playback_volume_all m elem value with pending := [] }
    ⟨h1, rfl, hx⟩
  simp only [State.with_mixer, h1, he, hvc] at hg
  simp only [external_volume_change, h2, asound_poll_cb, snd_mixer_handle_events,
    State.with_mixer, hp, he, List.nil_append,
    herr1, if_false, dispatch_events, State.deref, hx, Elem.with_volume, hcb, if_true,
    asound_elem_event, h1, ne_eq, not_true_eq_false, hg, asound_get_mute,
    hvc, List.length_singleton]
  cases hsw : e.has_playback_switch <;> simp

/-- C3: on a card whose elements are "Master" (index 0, playback volume,
native range [0, 65536], not muted) and "PCM" (playback volume), with no event
pending and a working transport, for a card name that fits `m_card` (fewer
than 128 bytes): `asound_setup(card, NULL, onChange)` binds "Master";
`asound_set_volume(50)` sets every Master sub-channel to 32768;
`asound_get_volume()` returns 50; after an outside change of Master to 0, one
`asound_poll_cb` returns TRUE and has invoked the listener exactly once, with
(0, FALSE). -/
theorem end_to_end_master (hw : Mixer) (card : String) (master pcm : Elem)
    (hcard : card.utf8ByteSize < 128)
    (helems : hw.elems = [master, pcm])
    (hname : master.name = "Master") (hidx : master.index = 0)
    (hpv : master.has_playback_volume = true)
    (hmin : master.pmin.val = 0) (hmax : master.pmax.val = 65536)
    (hunmuted : master.has_playback_switch = true → master.pswitch ≠ 0)
    (hpcm : pcm.name = "PCM") (hpcmpv : pcm.has_playback_volume = true)
    (hpend : hw.pending = []) (herr : 0 ≤ hw.handle_error) :
    ∃ (s0 s1 : State) (m1 : Mixer) (raw zero : Long) (s3 : State),
      raw.val = 32768 ∧ zero.val = 0 ∧
      asound_setup hw card none State.init = .ok s0 ∧
      asound_get_channel s0 = some "Master" ∧
      asound_get_channel_names s0 = ["Master", "PCM"] ∧
      s0.volume_changed_calls = [] ∧
      asound_set_volume 50 s0 = .ok s1 ∧
      Bound s1 0 m1 (({ master with callback := true } : Elem).with_volume raw) ∧
      asound_get_volume s1 = .ok 50 ∧
      asound_poll_cb (external_volume_change 0 zero s1) = .ok (true, s3) ∧
      s3.volume_changed_calls = [(0, false)] := by
  -- setup binds the element at position 0
  have hfind : snd_mixer_find_selem (snd_mixer_load hw).elems "Master" = some 0 := by
    simp [snd_mixer_load, helems, snd_mixer_find_selem, hname, hidx]
  have hnames : playback_volume_names hw.elems = ["Master", "PCM"] := by
    simp [playback_volume_names, helems, List.filter_cons, hpv, hpcmpv, hname, hpcm]
  have hsetup : asound_setup hw card none State.init =
      .ok ((setup_unbound hw card).rebind "Master" (some 0)
        (rebind_mixer (snd_mixer_load hw) none (some 0))) := by
    rw [setup_init_eq hw card none hcard, hnames]
    simp only [ne_eq, not_true_eq_false, false_and, if_false]
    rw [setup_unbound_set_channel, hfind]
  have hb0 : Bound ((setup_unbound hw card).rebind "Master" (some 0)
      (rebind_mixer (snd_mixer_load hw) none (some 0))) 0
      (rebind_mixer (snd_mixer_load hw) none (some 0)) { master with callback := true } := by
    refine ⟨rfl, rfl, ?_⟩
    rw [rebind_mixer_getElem]
    simp [snd_mixer_load, helems]
  -- set_volume(50) writes 32768
  have hset := set_volume_of_bound _ 0 _ _ hb0 50 (by norm_num) (by norm_num)
  have hraw : (wrap_long (({ master with callback := true } : Elem).pmin.val +
      Int.tdiv (wrap_long ((wrap_long (({ master with callback := true } : Elem).pmax.val -
        ({ master with callback := true } : Elem).pmin.val)).val * 50)).val 100)).val
      = 32768 := by
    rw [(set_volume_value_of_fits { master with callback := true } 50
      (by show master.pmin.val < master.pmax.val; omega) (by norm_num) (by norm_num)
      (by show (master.pmax.val - master.pmin.val) * 100 ≤ 9223372036854775807; omega)).1]
    show master.pmin.val + Int.tdiv ((master.pmax.val - master.pmin.val) * 50) 100 = 32768
    rw [hmin, hmax]
    decide
  generalize wrap_long (({ master with callback := true } : Elem).pmin.val +
      Int.tdiv (wrap_long ((wrap_long (({ master with callback := true } : Elem).pmax.val -
        ({ master with callback := true } : Elem).pmin.val)).val * 50)).val 100) = raw
    at hset hraw
  have hb1 := bound_after_set_volume_all _ 0 _ _ hb0 raw
  have hget := get_volume_of_bound _ 0 _ _ hb1
    (by show master.pmin.val < master.pmax.val; omega)
    (by show master.pmin.val ≤ raw.val; omega)
    (by show raw.val ≤ master.pmax.val; omega)
    (by show master.pmax.val - master.pmin.val ≤ 9223372036854775807; omega)
    (by show 100 * (raw.val - master.pmin.val) ≤ 9223372036854775807; omega)
  have hq : Int.tdiv (100 * ((({ master with callback := true } : Elem).with_volume raw).volume.val
      - (({ master with callback := true } : Elem).with_volume raw).pmin.val))
      ((({ master with callback := true } : Elem).with_volume raw).pmax.val
        - (({ master with callback := true } : Elem).with_volume raw).pmin.val) = 50 := by
    show Int.tdiv (100 * (raw.val - master.pmin.val)) (master.pmax.val - master.pmin.val) = 50
    rw [hraw, hmin, hmax]
    decide
  rw [hq] at hget
  -- the outside change to 0 and one drain of the event bridge
  have hzero : (wrap_long 0).val = 0 := by decide
  obtain ⟨s3, hpoll, hcalls⟩ := poll_after_external_change _ 0 _ _ (wrap_long 0) 0 hb1 rfl
    (by simp [snd_mixer_selem_set_playback_volume_all, rebind_mixer,
      snd_mixer_elem_set_callback, snd_mixer_load, hpend])
    (by simpa [snd_mixer_selem_set_playback_volume_all, rebind_mixer,
      snd_mixer_elem_set_callback, snd_mixer_load] using herr)
    rfl
    (by
      intro s2 m2 hb2
      rw [get_volume_of_bound s2 0 m2 _ hb2
        (by show master.pmin.val < master.pmax.val; omega)
        (by show master.pmin.val ≤ (wrap_long 0).val; omega)
        (by show (wrap_long 0).val ≤ master.pmax.val; omega)
        (by show master.pmax.val - master.pmin.val ≤ 9223372036854775807; omega)
        (by show 100 * ((wrap_long 0).val - master.pmin.val) ≤ 9223372036854775807; omega)]
      show Except.ok (Int.tdiv (100 * ((wrap_long 0).val - master.pmin.val))
        (master.pmax.val - master.pmin.val)) = Except.ok 0
      rw [hzero, hmin, hmax]
      rfl)
  refine ⟨_, _, _, raw, wrap_long 0, s3, hraw, hzero, hsetup, rfl, hnames, rfl, hset, hb1,
    hget, hpoll, ?_⟩
  rw [hcalls]
  have hmute : (if master.has_playback_switch = true then
      (if master.pswitch ≠ 0 then false else true) else false) = false := by
    cases hsw : master.has_playback_switch with
    | false => simp
    | true => simp [hunmuted hsw]
  simp only [Elem.with_volume]
  rw [hmute]
  simp [State.with_mixer, State.rebind, setup_unbound]

/-- Witness for C3: "Master" with range [0, 65536] at raw value 100 and "PCM"
with range [0, 255]. -/
theorem end_to_end_master_witness :
    "default".utf8ByteSize < 128 ∧
      master_pcm_card.elems = [mk_elem "Master" true 0 65536 100, mk_elem "PCM" true 0 255 255] ∧
      ∃ s0 s1 s3,
        asound_setup master_pcm_card "default" none State.init = .ok s0 ∧
        asound_get_channel s0 = some "Master" ∧
        asound_set_volume 50 s0 = .ok s1 ∧
        asound_get_volume s1 = .ok 50 ∧
        asound_poll_cb (external_volume_change 0 (wrap_long 0) s1) = .ok (true, s3) ∧
        s3.volume_changed_calls = [(0, false)] := by
  refine ⟨by decide, rfl, ?_⟩
  obtain ⟨s0, s1, _, _, zero, s3, _, hz, h1, h2, _, _, h3, _, h4, h5, h6⟩ :=
    end_to_end_master master_pcm_card "default"
      (mk_elem "Master" true 0 65536 100) (mk_elem "PCM" true 0 255 255)
      (by decide) rfl rfl rfl rfl (by decide) (by decide) (by decide) rfl rfl rfl (by decide)
  have hze : zero = wrap_long 0 := Subtype.ext (hz.trans (by decide))
  subst hze
  exact ⟨s0, s1, s3, h1, h2, h3, h4, h5, h6⟩

/-! ## Padding of a short period -/

theorem pad_loop_done (buffer_size fuel i : Nat) (b : PeriodBuffer)
    (hi : buffer_size < i) : pad_loop buffer_size fuel i b = b := by
  cases fuel with
  | zero => rfl
  | succ n => simp [pad_loop, Nat.not_le.mpr hi]

theorem pad_loop_effect (buffer_size fuel i : Nat) (b : PeriodBuffer)
    (hlen : b.bytes.length = buffer_size) (hi : i ≤ buffer_size)
    (hf : buffer_size + 1 - i ≤ fuel) :
    (pad_loop buffer_size fuel i b).beyond = b.beyond ++ [(buffer_size, 48)] ∧
      ∀ j, (pad_loop buffer_size fuel i b).bytes[j]? =
        if i ≤ j ∧ j < buffer_size then some 48 else b.bytes[j]? := by
  induction fuel generalizing i b with
  | zero => omega
  | succ n ih =>
    simp only [pad_loop, hi, if_true]
    by_cases hlt : i < buffer_size
    · have hst : b.store i 48 = { b with bytes := b.bytes.set i 48 } := by
        simp [PeriodBuffer.store, hlen, hlt]
      rw [hst]
      obtain ⟨h1, h2⟩ := ih (i + 1) { b with bytes := b.bytes.set i 48 }
        (by simp [hlen]) (by omega) (by omega)
      refine ⟨h1, ?_⟩
      intro j
      rw [h2 j]
      simp only [List.getElem?_set]
      by_cases hij : i = j
      · subst hij
        simp [hlen, hlt]
      · by_cases hj : i + 1 ≤ j ∧ j < buffer_size
        · have : i ≤ j ∧ j < buffer_size := ⟨by omega, hj.2⟩
          simp [hj, this]
        · have : ¬ (i ≤ j ∧ j < buffer_size) := by omega
          simp [hj, this, hij]
    · have hieq : i = buffer_size := by omega
      subst hieq
      have hst : b.store i 48 = { b with beyond := b.beyond ++ [(i, 48)] } := by
        simp [PeriodBuffer.store, hlen]
      rw [hst, pad_loop_done _ _ _ _ (by omega)]
      refine ⟨rfl, ?_⟩
      intro j
      have : ¬ (i ≤ j ∧ j < i) := by omega
      simp [this]

/-- What the padding step does on every short period (`res < buffer_size`):
index `res` keeps the byte it held, the indices after it up to the end of the
buffer take the byte 48, and one store goes to index `buffer_size`, past the
buffer. -/
theorem pad_short_period_effect (buffer_size res : Nat) (b : PeriodBuffer)
    (hlen : b.bytes.length = buffer_size) (hres : res < buffer_size) :
    (pad_short_period buffer_size res b).beyond = b.beyond ++ [(buffer_size, 48)] ∧
      (∀ j, j ≤ res → (pad_short_period buffer_size res b).bytes[j]? = b.bytes[j]?) ∧
      (∀ j, res < j → j < buffer_size →
        (pad_short_period buffer_size res b).bytes[j]? = some 48) := by
  simp only [pad_short_period, hres, if_true]
  obtain ⟨h1, h2⟩ := pad_loop_effect buffer_size (buffer_size + 1) (res + 1) b hlen
    (by omega) (by omega)
  refine ⟨h1, ?_, ?_⟩
  · intro j hj
    rw [h2 j]
    have : ¬ (res + 1 ≤ j ∧ j < buffer_size) := by omega
    simp [this]
  · intro j hj1 hj2
    rw [h2 j]
    have : res + 1 ≤ j ∧ j < buffer_size := ⟨by omega, hj2⟩
    simp [this]

/-- C10 fails on the code: with `buffer_size = 4`, a buffer holding 7, 7, 7, 7
from the previous period and a read that returned `res = 2` bytes (10, 20), the
padding step leaves index 2 at its stale value 7, stores the character '0'
(byte 48, not zero) at index 3, and stores once past the buffer, at index 4. -/
theorem pad_short_period_misses_zero_padding :
    pad_short_period 4 2 { bytes := [10, 20, 7, 7], beyond := [] }
      = { bytes := [10, 20, 7, 48], beyond := [(4, 48)] } := by
  decide

end VolumeIcon
